import Mathlib

/-!
# RAIntegration: frame processing, state restore, login and logout

A shallow embedding of `src/Exports.cpp` (`HandleLoginResponse`, `_RA_AttemptLogin`,
`ProcessAchievements`, `CanRestoreState`, `OnStateRestored`, `_RA_OnLoadState`,
`_RA_RestoreState`), of `src/data/UserContext.cpp` (`UserContext::Logout`) and of
`src/ui/ImageReference.hh` (`ImageReference::ChangeReference`, `ImageReference::Release`).

The functions of the source reach their collaborators through the service locator.  Here the
collaborators are the fields of one `World` value that every function takes and returns.
A call into a collaborator whose code is outside `src/` is appended to `World.log` as an
`Effect`; a collaborator whose state a function reads back (the score trackers of the overlay,
the user context) is state of the `World`.

Pointers to achievements are indices into the achievement vector of the game context.
Wide and narrow strings are both `String`, so `ra::Widen` is the identity.
The performance macros (`TALLY_PERFORMANCE`, `CHECK_PERFORMANCE`) have no counterpart.
The build switch `RA_UTEST` is the parameter `utest` of the functions that depend on it.
-/

namespace RAIntegration

/-! ## Data model -/

/-- Modelled from the spec: the declaration of `ra::api::ApiResult` is not in `src/`; the spec
gives a response three outcomes, success, failure and transient-incomplete. -/
inductive ApiResult where
  | Success
  | Failure
  | Incomplete
  deriving DecidableEq, Repr

/-- Fields of `ra::api::Login::Response` that `HandleLoginResponse` reads. -/
structure LoginResponse where
  Result : ApiResult := ApiResult.Failure
  ErrorMessage : String := ""
  Username : String := ""
  ApiToken : String := ""
  Score : Nat := 0
  NumUnreadMessages : Nat := 0
  deriving DecidableEq, Repr

/-- Modelled from the spec: `Succeeded()` is declared outside `src/`; a response succeeded when
its `Result` is `Success` (an error message is optional "when Result ≠ Success"). -/
def LoginResponse.Succeeded (r : LoginResponse) : Bool :=
  decide (r.Result = ApiResult.Success)

/-- Fields of `ra::api::Logout::Response` that `UserContext::Logout` reads. -/
structure LogoutResponse where
  Result : ApiResult := ApiResult.Failure
  ErrorMessage : String := ""
  deriving DecidableEq, Repr

/-- Modelled from the spec: `Succeeded()` is declared outside `src/`; a response succeeded when
its `Result` is `Success`. -/
def LogoutResponse.Succeeded (r : LogoutResponse) : Bool :=
  decide (r.Result = ApiResult.Success)

/-- The cases of `AchievementRuntime::ChangeType` that `ProcessAchievements` switches over. -/
inductive ChangeType where
  | AchievementReset
  | AchievementTriggered
  | LeaderboardStarted
  | LeaderboardUpdated
  | LeaderboardCanceled
  | LeaderboardTriggered
  deriving DecidableEq, Repr

/-- One entry of the changelog, `AchievementRuntime::Change`. -/
structure Change where
  nType : ChangeType
  nId : Nat
  nValue : Int
  deriving DecidableEq, Repr

/-- The features of `ra::services::Feature` that the embedded functions query. -/
inductive Feature where
  | Hardcore
  | LeaderboardNotifications
  | LeaderboardCancelNotifications
  deriving DecidableEq, Repr

/-- The members of an achievement that `ProcessAchievements` reads or writes. -/
structure Achievement where
  ID : Nat
  Title : String := ""
  Active : Bool := true
  PauseOnReset : Bool := false
  PauseOnTrigger : Bool := false
  UnlockRichPresence : String := ""
  deriving DecidableEq, Repr

/-- The members of a leaderboard that `ProcessAchievements` reads.  `FormatScore` is a member
function whose body is outside `src/`; it is carried as a field. -/
structure Leaderboard where
  ID : Nat
  Title : String := ""
  Description : String := ""
  FormatScore : Int → String := fun v => toString v

/-- A call into a collaborator, in the order the calls are made. -/
inductive Effect where
  /-- The call `AchievementRuntime::Process(vChanges)`. -/
  | RuntimeProcess
  /-- The call `SetDirtyFlag(Conditions)` on the achievement at the index. -/
  | SetDirtyFlag (pAchievement : Nat)
  /-- The call `EmulatorContext::Pause()`. -/
  | Pause
  /-- The call `MessageBoxViewModel::ShowMessage`. -/
  | ShowMessage (sMessage : String)
  /-- The call `MessageBoxViewModel::ShowErrorMessage`. -/
  | ShowErrorMessage (sHeader sMessage : String)
  /-- The call `MessageBoxViewModel::ShowInfoMessage`. -/
  | ShowInfoMessage (sMessage : String)
  /-- The call `GameContext::AwardAchievement`. -/
  | AwardAchievement (nId : Nat)
  /-- The call `g_AchievementsDialog.ReloadLBXData`. -/
  | ReloadLBXData (nId : Nat)
  /-- The call `g_AchievementEditorDialog.LoadAchievement(pAchievement, TRUE)`. -/
  | LoadAchievement (pAchievement : Nat)
  /-- The call `IAudioSystem::PlayAudioFile`. -/
  | PlayAudioFile (sFile : String)
  /-- The call `OverlayManager::QueueMessage`; `sImage` is the name of the user picture
  set on the popup, when one is set. -/
  | QueueMessage (sTitle sDescription sDetail : String) (sImage : Option String)
  /-- The call `GameContext::SubmitLeaderboardEntry`. -/
  | SubmitLeaderboardEntry (nId : Nat) (nValue : Int)
  /-- The call `Call()` on the login request. -/
  | LoginCall
  /-- The call `CallAsyncWithRetry(HandleLoginResponse)` on the login request. -/
  | LoginCallAsyncWithRetry
  /-- The call `Call()` on the logout request. -/
  | LogoutCall
  /-- Entry into `HandleLoginResponse` with the response it is given. -/
  | HandleLoginResponse (response : LoginResponse)
  /-- The call `LoginViewModel::ShowModal`. -/
  | ShowLoginDialog
  /-- The call `UserContext::Initialize`. -/
  | UserInitialize (sUsername sApiToken : String)
  /-- The call `UserContext::SetScore`. -/
  | UserSetScore (nScore : Nat)
  /-- The call `SessionTracker::Initialize`. -/
  | SessionInitialize (sUsername : String)
  /-- The call `EmulatorContext::RebuildMenu`. -/
  | RebuildMenu
  /-- The call `SetWindowTitle` on the emulator view model. -/
  | SetWindowTitle (sTitle : String)
  /-- The call `OverlayManager::ClearPopups`. -/
  | ClearPopups
  /-- The call `OverlayManager::HideOverlay`. -/
  | HideOverlay
  /-- The call `IConfiguration::Save`. -/
  | ConfigurationSave
  /-- The call `MessageBoxViewModel::ShowWarningMessage`. -/
  | ShowWarningMessage (sHeader sMessage : String)
  /-- The call `EmulatorContext::DisableHardcoreMode`. -/
  | DisableHardcoreMode
  /-- The call `AchievementRuntime::LoadProgressFromFile`. -/
  | LoadProgressFromFile (sFilename : String)
  /-- The call `AchievementRuntime::LoadProgressFromBuffer`. -/
  | LoadProgressFromBuffer (pBuffer : String)
  /-- The call `OverlayManager::AdvanceFrame`. -/
  | OverlayAdvanceFrame
  /-- The call `MemoryBookmarks.DoFrame` on the window manager. -/
  | MemoryBookmarksDoFrame
  /-- The call `MemoryInspector.DoFrame` on the window manager. -/
  | MemoryInspectorDoFrame
  /-- The notification that `GameContext::AwardAchievement` surfaces for the achievement it
  awards.  The spec does not give its form. -/
  | SurfaceNotification (nId : Nat)
  deriving DecidableEq, Repr

/-- A message put before the user: a message box or an overlay popup. -/
def Effect.isNotification : Effect → Bool
  | Effect.ShowMessage _ => true
  | Effect.ShowErrorMessage _ _ => true
  | Effect.ShowInfoMessage _ => true
  | Effect.ShowWarningMessage _ _ => true
  | Effect.QueueMessage _ _ _ _ => true
  | Effect.SurfaceNotification _ => true
  | _ => false

/-- A message box reporting an error. -/
def Effect.isErrorMessage : Effect → Bool
  | Effect.ShowErrorMessage _ _ => true
  | _ => false

/-- Modelled from the spec: the runtime processor, whose code is outside `src/`.  `pending` holds
the changelogs that the successive calls of `Process()` return. -/
structure AchievementRuntime where
  IsPaused : Bool := false
  pending : List (List Change) := []

/-- Modelled from the spec: the game context owns the achievements and leaderboards of the
game as a mapping from id to entity, in definition order. -/
structure GameContext where
  m_vAchievements : List Achievement := []
  m_vLeaderboards : List Leaderboard := []
  HasRichPresence : Bool := false
  IsRichPresenceFromFile : Bool := false
  GetRichPresenceDisplayString : String := ""

/-- The settings of `IConfiguration` that the embedded functions read. -/
structure Configuration where
  GetUsername : String := ""
  GetApiToken : String := ""
  IsFeatureEnabled : Feature → Bool := fun _ => false

/-- The members of `ra::data::UserContext`. -/
structure UserContext where
  m_sUsername : String := ""
  m_sApiToken : String := ""
  m_nScore : Nat := 0
  IsLoginDisabled : Bool := false
  deriving DecidableEq, Repr

/-- Everything the embedded functions reach through the service locator. -/
structure World where
  pRuntime : AchievementRuntime := {}
  pGameContext : GameContext := {}
  pConfiguration : Configuration := {}
  pUserContext : UserContext := {}
  /-- The achievement loaded in the editor dialog, `ActiveAchievement()`. -/
  pEditingAchievement : Option Nat := none
  /-- Modelled from the spec: the score trackers of the overlay manager, keyed by leaderboard id,
  each holding its display text. -/
  scoreTrackers : Nat → Option String := fun _ => none
  /-- The user the session tracker was last initialised for. -/
  sessionUser : Option String := none
  /-- Whether the session tracker holds session data once initialised for the user. -/
  HasSessionData : String → Bool := fun _ => false
  /-- The emulator title `EmulatorContext::GetAppTitle` builds for a message. -/
  GetAppTitle : String → String := fun s => s
  /-- What the k-th `Call()` of a login request returns. -/
  loginServer : Nat → LoginResponse := fun _ => {}
  loginCalls : Nat := 0
  /-- What the k-th `Call()` of a logout request returns. -/
  logoutServer : Nat → LogoutResponse := fun _ => {}
  logoutCalls : Nat := 0
  log : List Effect := []

/-- Record one call into a collaborator. -/
def World.emit (w : World) (e : Effect) : World :=
  { w with log := w.log ++ [e] }

/-! ## Collaborators outside `src/` -/

/-- Modelled from the spec: `GameContext::FindAchievement` is outside `src/`; it looks the id up
in the achievements of the game.  The result is the pointer (an index) and the pointee. -/
def GameContext.FindAchievement (g : GameContext) (nId : Nat) : Option (Nat × Achievement) :=
  g.m_vAchievements.enum.find? (fun p => p.2.ID == nId)

/-- Modelled from the spec: `GameContext::FindLeaderboard` is outside `src/`; it looks the id up
in the leaderboards of the game. -/
def GameContext.FindLeaderboard (g : GameContext) (nId : Nat) : Option Leaderboard :=
  g.m_vLeaderboards.find? (fun p => p.ID == nId)

/-- Modelled from the spec: `GameContext::AwardAchievement` is outside `src/`.  The spec has the
handling of `AchievementTriggered` mark the achievement awarded for the session, request a pause
if configured, and surface a notification; the pause is in `ProcessAchievements`, so the call
stands for the other two: the log entry `AwardAchievement` is the marking, and the notification
follows it.  The spec speaks of an achievement of the game only; for an id that names none the
call is recorded and nothing more. -/
def World.AwardAchievement (w : World) (nId : Nat) : World :=
  let w := w.emit (Effect.AwardAchievement nId)
  match w.pGameContext.FindAchievement nId with
  | some _ => w.emit (Effect.SurfaceNotification nId)
  | none => w

/-- The write `pAchievement->SetUnlockRichPresence(sValue)` through the pointer. -/
def World.SetUnlockRichPresence (w : World) (pAchievement : Nat) (sValue : String) : World :=
  { w with pGameContext := { w.pGameContext with
      m_vAchievements := w.pGameContext.m_vAchievements.modify
        (fun a => { a with UnlockRichPresence := sValue }) pAchievement } }

/-- Modelled from the spec: `OverlayManager::AddScoreTracker` is outside `src/`; it creates the
tracker keyed by the leaderboard id, with no display text yet. -/
def World.AddScoreTracker (w : World) (nLeaderboardId : Nat) : World :=
  { w with scoreTrackers := Function.update w.scoreTrackers nLeaderboardId (some "") }

/-- Modelled from the spec: `OverlayManager::GetScoreTracker` is outside `src/`; it is the
tracker keyed by the leaderboard id, or null. -/
def World.GetScoreTracker (w : World) (nLeaderboardId : Nat) : Option String :=
  w.scoreTrackers nLeaderboardId

/-- The write `SetDisplayText(sText)` on the tracker keyed by the leaderboard id. -/
def World.SetDisplayText (w : World) (nLeaderboardId : Nat) (sText : String) : World :=
  { w with scoreTrackers := Function.update w.scoreTrackers nLeaderboardId (some sText) }

/-- Modelled from the spec: `OverlayManager::RemoveScoreTracker` is outside `src/`; it removes
the tracker keyed by the leaderboard id. -/
def World.RemoveScoreTracker (w : World) (nLeaderboardId : Nat) : World :=
  { w with scoreTrackers := Function.update w.scoreTrackers nLeaderboardId none }

/-- Modelled from the spec: `AchievementRuntime::Process` is outside `src/`; one call hands out
the next changelog, once. -/
def AchievementRuntime.Process (w : World) : List Change × World :=
  match w.pRuntime.pending with
  | [] => ([], w.emit Effect.RuntimeProcess)
  | vChanges :: rest =>
    (vChanges, ({ w with pRuntime := { w.pRuntime with pending := rest } }).emit
      Effect.RuntimeProcess)

/-- Modelled from the spec: the blocking `Call()` of the login request, outside `src/`; it
returns the next outcome of the remote call. -/
def LoginRequest.Call (w : World) : LoginResponse × World :=
  (w.loginServer w.loginCalls,
    ({ w with loginCalls := w.loginCalls + 1 }).emit Effect.LoginCall)

/-- Modelled from the spec: the blocking `Call()` of the logout request, outside `src/`; it
returns the next outcome of the remote call. -/
def LogoutRequest.Call (w : World) : LogoutResponse × World :=
  (w.logoutServer w.logoutCalls,
    ({ w with logoutCalls := w.logoutCalls + 1 }).emit Effect.LogoutCall)

/-- Modelled from the spec: `UserContext::Initialize` is outside `src/`; it stores the
credentials of the authenticated user. -/
def World.UserInitialize (w : World) (sUsername sApiToken : String) : World :=
  ({ w with pUserContext := { w.pUserContext with
      m_sUsername := sUsername, m_sApiToken := sApiToken } }).emit
    (Effect.UserInitialize sUsername sApiToken)

/-- Modelled from the spec: `UserContext::SetScore` is outside `src/`; it stores the score. -/
def World.UserSetScore (w : World) (nScore : Nat) : World :=
  ({ w with pUserContext := { w.pUserContext with m_nScore := nScore } }).emit
    (Effect.UserSetScore nScore)

/-- Modelled from the spec: `SessionTracker::Initialize` is outside `src/`; it loads the session
information of the user. -/
def World.SessionInitialize (w : World) (sUsername : String) : World :=
  ({ w with sessionUser := some sUsername }).emit (Effect.SessionInitialize sUsername)

/-- Modelled from the spec: `EmulatorContext::DisableHardcoreMode` is outside `src/`; it turns
the `Hardcore` feature of the configuration off. -/
def World.DisableHardcoreMode (w : World) : World :=
  ({ w with pConfiguration := { w.pConfiguration with
      IsFeatureEnabled := fun f =>
        if f = Feature.Hardcore then false else w.pConfiguration.IsFeatureEnabled f } }).emit
    Effect.DisableHardcoreMode

/-! ## `src/Exports.cpp` -/

/-- `_RA_UpdateAppTitle(sMessage)`; a null message is the empty string. -/
def _RA_UpdateAppTitle (sMessage : Option String) (w : World) : World :=
  w.emit (Effect.SetWindowTitle (w.GetAppTitle (sMessage.getD "")))

/-- `HandleLoginResponse(response)`. -/
def HandleLoginResponse (response : LoginResponse) (w : World) : World :=
  let w := w.emit (Effect.HandleLoginResponse response)
  if w.pUserContext.IsLoginDisabled then w
  else if response.Succeeded then
    -- initialize the user context
    let w := w.UserInitialize response.Username response.ApiToken
    let w := w.UserSetScore response.Score
    -- load the session information
    let w := w.SessionInitialize response.Username
    -- show the welcome message
    let w := w.emit (Effect.PlayAudioFile "Overlay\\login.wav")
    let w := w.emit (Effect.QueueMessage
      ("Welcome " ++ (if w.HasSessionData response.Username then "back " else "")
        ++ response.Username)
      (if response.NumUnreadMessages = 1 then "You have 1 new message"
        else "You have " ++ toString response.NumUnreadMessages ++ " new messages")
      (toString response.Score ++ " points")
      (some response.Username))
    -- notify the client to update the RetroAchievements menu
    let w := w.emit Effect.RebuildMenu
    -- update the client title-bar to include the user name
    _RA_UpdateAppTitle none w
  else if response.ErrorMessage ≠ "" then
    w.emit (Effect.ShowErrorMessage "Login Failed" response.ErrorMessage)
  else
    w.emit (Effect.ShowErrorMessage "Login Failed" "Please login again.")

/-- `_RA_AttemptLogin(bBlocking)`.  The completion of `CallAsyncWithRetry` runs outside the
call and is not part of it. -/
def _RA_AttemptLogin (bBlocking : Bool) (w : World) : World :=
  if w.pUserContext.IsLoginDisabled then w
  else if w.pConfiguration.GetApiToken = "" ∨ w.pConfiguration.GetUsername = "" then
    -- show the login dialog box
    w.emit Effect.ShowLoginDialog
  else if bBlocking then
    let (response, w) := LoginRequest.Call w
    -- if we're blocking, we can't keep retrying on network failure, but we can retry at least
    -- once
    let (response, w) :=
      if response.Result = ApiResult.Incomplete then LoginRequest.Call w else (response, w)
    HandleLoginResponse response w
  else
    w.emit Effect.LoginCallAsyncWithRetry

/-- The body of the loop of `ProcessAchievements`: the switch over the type of one change. -/
def ProcessChange (utest : Bool) (w : World) (pChange : Change) : World :=
  match pChange.nType with
  | ChangeType.AchievementReset =>
    match w.pGameContext.FindAchievement pChange.nId with
    | some (_, pAchievement) =>
      if pAchievement.PauseOnReset then
        (w.emit Effect.Pause).emit
          (Effect.ShowMessage ("Pause on Reset: " ++ pAchievement.Title))
      else w
    | none => w
  | ChangeType.AchievementTriggered =>
    let w := w.AwardAchievement pChange.nId
    match w.pGameContext.FindAchievement pChange.nId with
    | none => w
    | some (p, pAchievement) =>
      let w :=
        if w.pGameContext.HasRichPresence && !w.pGameContext.IsRichPresenceFromFile then
          w.SetUnlockRichPresence p w.pGameContext.GetRichPresenceDisplayString
        else w
      let w :=
        if utest then w
        else
          let w := w.emit (Effect.ReloadLBXData pAchievement.ID)
          if w.pEditingAchievement = some p then w.emit (Effect.LoadAchievement p) else w
      if pAchievement.PauseOnTrigger then
        (w.emit Effect.Pause).emit
          (Effect.ShowMessage ("Pause on Trigger: " ++ pAchievement.Title))
      else w
  | ChangeType.LeaderboardStarted =>
    match w.pGameContext.FindLeaderboard pChange.nId with
    | some pLeaderboard =>
      let w :=
        if w.pConfiguration.IsFeatureEnabled Feature.LeaderboardNotifications then
          (w.emit (Effect.PlayAudioFile "Overlay\\lb.wav")).emit
            (Effect.QueueMessage "Leaderboard Attempt Started" pLeaderboard.Title
              pLeaderboard.Description none)
        else w
      let w := w.AddScoreTracker pLeaderboard.ID
      w.SetDisplayText pLeaderboard.ID (pLeaderboard.FormatScore pChange.nValue)
    | none => w
  | ChangeType.LeaderboardUpdated =>
    match w.pGameContext.FindLeaderboard pChange.nId with
    | some pLeaderboard =>
      match w.GetScoreTracker pChange.nId with
      | some _ => w.SetDisplayText pChange.nId (pLeaderboard.FormatScore pChange.nValue)
      | none => w
    | none => w
  | ChangeType.LeaderboardCanceled =>
    match w.pGameContext.FindLeaderboard pChange.nId with
    | some pLeaderboard =>
      let w :=
        if w.pConfiguration.IsFeatureEnabled Feature.LeaderboardCancelNotifications then
          (w.emit (Effect.PlayAudioFile "Overlay\\lbcancel.wav")).emit
            (Effect.QueueMessage "Leaderboard Attempt Canceled" pLeaderboard.Title
              pLeaderboard.Description none)
        else w
      w.RemoveScoreTracker pLeaderboard.ID
    | none => w
  | ChangeType.LeaderboardTriggered =>
    -- will show the scoreboard when submission completes
    let w := w.emit (Effect.SubmitLeaderboardEntry pChange.nId pChange.nValue)
    w.RemoveScoreTracker pChange.nId

/-- The first block of `ProcessAchievements` after the pause check, compiled outside the test
build: the achievement loaded in the editor dialog, when it is active, has its conditions
marked dirty. -/
def MarkEditingAchievement (w : World) : World :=
  match w.pEditingAchievement with
  | some p =>
    match w.pGameContext.m_vAchievements.get? p with
    | some pEditingAchievement =>
      if pEditingAchievement.Active then w.emit (Effect.SetDirtyFlag p) else w
    | none => w
  | none => w

/-- `ProcessAchievements()`, the body of `_RA_DoAchievementsFrame`. -/
def ProcessAchievements (utest : Bool) (w : World) : World :=
  if w.pRuntime.IsPaused then w
  else
    let w := if utest then w else MarkEditingAchievement w
    let (vChanges, w) := AchievementRuntime.Process w
    vChanges.foldl (ProcessChange utest) w

/-- `UpdateUIForFrameChange()`, compiled outside the test build. -/
def UpdateUIForFrameChange (w : World) : World :=
  let w := w.emit Effect.OverlayAdvanceFrame
  let w := w.emit Effect.MemoryBookmarksDoFrame
  w.emit Effect.MemoryInspectorDoFrame

/-- `CanRestoreState()`: the answer and the world after the call.  `IsLoggedIn` is a member
function of the user context whose body is outside `src/`; it is a parameter. -/
def CanRestoreState (IsLoggedIn : UserContext → Bool) (w : World) : Bool × World :=
  if !IsLoggedIn w.pUserContext then (false, w)
  else
    let w :=
      if w.pConfiguration.IsFeatureEnabled Feature.Hardcore then
        -- save state is being allowed by app (user should have been warned!)
        let w := w.emit (Effect.ShowWarningMessage "Disabling Hardcore mode."
          "Loading save states is not allowed in Hardcore mode.")
        w.DisableHardcoreMode
      else w
    (true, w)

/-- `OnStateRestored()`. -/
def OnStateRestored (utest : Bool) (w : World) : World :=
  let w := w.emit Effect.ClearPopups
  if utest then w
  else
    let w := UpdateUIForFrameChange w
    match w.pEditingAchievement with
    | some p => w.emit (Effect.SetDirtyFlag p)
    | none => w

/-- `_RA_OnLoadState(sFilename)`.  Modelled from the spec: `LoadProgressFromFile` is outside
`src/`; restoring updates the evaluation state of the runtime silently and emits no change. -/
def _RA_OnLoadState (IsLoggedIn : UserContext → Bool) (utest : Bool) (sFilename : String)
    (w : World) : World :=
  match CanRestoreState IsLoggedIn w with
  | (true, w) => OnStateRestored utest (w.emit (Effect.LoadProgressFromFile sFilename))
  | (false, w) => w

/-- `_RA_RestoreState(pBuffer)`.  Modelled from the spec: `LoadProgressFromBuffer` is outside
`src/`; restoring updates the evaluation state of the runtime silently and emits no change. -/
def _RA_RestoreState (IsLoggedIn : UserContext → Bool) (utest : Bool) (pBuffer : String)
    (w : World) : World :=
  match CanRestoreState IsLoggedIn w with
  | (true, w) => OnStateRestored utest (w.emit (Effect.LoadProgressFromBuffer pBuffer))
  | (false, w) => w

/-! ## `src/data/UserContext.cpp` -/

/-- `UserContext::Logout()`.  `IsLoggedIn` is a member function whose body is outside `src/`;
it is a parameter. -/
def UserContext.Logout (IsLoggedIn : UserContext → Bool) (utest : Bool) (w : World) : World :=
  if !IsLoggedIn w.pUserContext then w
  else
    let (response, w) := LogoutRequest.Call w
    if response.Succeeded then
      let w := { w with pUserContext := { w.pUserContext with
        m_sUsername := "", m_sApiToken := "", m_nScore := 0 } }
      let w := w.emit Effect.ClearPopups
      let w := w.emit Effect.HideOverlay
      let w := w.emit Effect.ConfigurationSave
      let w := if utest then w else _RA_UpdateAppTitle none w
      let w := w.emit Effect.RebuildMenu
      w.emit (Effect.ShowInfoMessage "You are now logged out.")
    else
      w.emit (Effect.ShowErrorMessage "Logout failed" response.ErrorMessage)

/-! ## `src/ui/ImageReference.hh` -/

/-- The enumeration `ra::ui::ImageType`. -/
inductive ImageType where
  | None
  | Badge
  | UserPic
  | Local
  | Icon
  deriving DecidableEq, Repr

/-- The members of `ra::ui::ImageReference`. -/
structure ImageReference where
  m_nType : ImageType := ImageType.None
  m_sName : String := ""
  m_nData : Nat := 0
  deriving DecidableEq, Repr

/-- `ImageReference::Type()`. -/
def ImageReference.Type (r : ImageReference) : ImageType := r.m_nType

/-- `ImageReference::Name()`. -/
def ImageReference.Name (r : ImageReference) : String := r.m_sName

/-- `ImageReference::GetData()`. -/
def ImageReference.GetData (r : ImageReference) : Nat := r.m_nData

/-- `ImageReference::SetData(nValue)`. -/
def ImageReference.SetData (r : ImageReference) (nValue : Nat) : ImageReference :=
  { r with m_nData := nValue }

/-- An image reference together with the calls of `ReleaseReference` that the registered
image repository has received, each with the reference as it was passed. -/
structure ImageWorld where
  pImage : ImageReference := {}
  released : List ImageReference := []
  deriving DecidableEq, Repr

/-- `ImageReference::Release()`.  `IImageRepository::ReleaseReference` is pure virtual; what it
can change of the reference it is handed is the custom data, through `SetData`, and
`ReleaseReference` gives the value it leaves there. -/
def ImageReference.Release (ReleaseReference : ImageReference → Nat) (s : ImageWorld) :
    ImageWorld :=
  if s.pImage.m_nType ≠ ImageType.None then
    { pImage := s.pImage.SetData (ReleaseReference s.pImage)
      released := s.released ++ [s.pImage] }
  else s

/-- `ImageReference::ChangeReference(nType, sName)`. -/
def ImageReference.ChangeReference (ReleaseReference : ImageReference → Nat)
    (nType : ImageType) (sName : String) (s : ImageWorld) : ImageWorld :=
  if nType ≠ s.pImage.m_nType ∨ sName ≠ s.pImage.m_sName then
    let s := ImageReference.Release ReleaseReference s
    { s with pImage := { s.pImage with m_nType := nType, m_sName := sName } }
  else s

/-! ## Worlds used as concrete inputs -/

/-- A game with two achievements and two leaderboards. -/
def sampleGame : GameContext :=
  { m_vAchievements :=
      [{ ID := 1, Title := "First Steps" },
       { ID := 2, Title := "Boss Rush", PauseOnTrigger := true, PauseOnReset := true }]
    m_vLeaderboards :=
      [{ ID := 7, Title := "Speedrun", Description := "Fastest time" },
       { ID := 8, Title := "High Score", Description := "Most points" }] }

/-- A paused runtime that holds a changelog for its next unpaused call. -/
def pausedWorld : World :=
  { pRuntime := { IsPaused := true,
                  pending := [[{ nType := ChangeType.AchievementTriggered, nId := 2, nValue := 0 },
                               { nType := ChangeType.LeaderboardTriggered, nId := 7, nValue := 5 }]] }
    pGameContext := sampleGame
    pEditingAchievement := some 0
    scoreTrackers := fun n => if n = 7 then some "5" else none }

/-- The remote login call fails to complete twice, then would succeed. -/
def flakyServer : Nat → LoginResponse
  | 0 => { Result := ApiResult.Incomplete, ErrorMessage := "timeout" }
  | 1 => { Result := ApiResult.Incomplete, ErrorMessage := "timeout" }
  | _ => { Result := ApiResult.Success, Username := "user", ApiToken := "token", Score := 10 }

/-- Stored credentials, login enabled, and a remote login call that does not complete twice. -/
def flakyLoginWorld : World :=
  { pConfiguration := { GetUsername := "user", GetApiToken := "token" }
    loginServer := flakyServer }

/-- A logged-in user and a remote logout call that does not complete. -/
def flakyLogoutWorld : World :=
  { pUserContext := { m_sUsername := "user", m_sApiToken := "token", m_nScore := 10 }
    pConfiguration := { GetUsername := "user", GetApiToken := "token" }
    loginServer := flakyServer
    logoutServer := fun _ => { Result := ApiResult.Incomplete, ErrorMessage := "timeout" } }

/-- A user context counts as logged in when it holds an API token. -/
def hasApiToken (u : UserContext) : Bool :=
  decide (u.m_sApiToken ≠ "")

/-- The sample game, nothing paused, no feature enabled, no tracker. -/
def sampleWorld : World :=
  { pGameContext := sampleGame }

/-- The sample game with both leaderboard notification features enabled. -/
def notifyingWorld : World :=
  { pGameContext := sampleGame
    pConfiguration :=
      { IsFeatureEnabled := (fun f => decide (f = Feature.LeaderboardNotifications
          ∨ f = Feature.LeaderboardCancelNotifications)) }
    scoreTrackers := fun n => if n = 7 then some "5" else none }

/-! ## Vocabulary of the statements -/

/-- The change is one of the four leaderboard events. -/
def Change.isLeaderboardEvent (c : Change) : Bool :=
  c.nType == ChangeType.LeaderboardStarted || c.nType == ChangeType.LeaderboardUpdated
    || c.nType == ChangeType.LeaderboardCanceled || c.nType == ChangeType.LeaderboardTriggered

/-- The change is a `LeaderboardStarted`, `LeaderboardCanceled` or `LeaderboardTriggered` event
for the leaderboard id. -/
def Change.isTrackerEvent (nId : Nat) (c : Change) : Bool :=
  c.nId == nId && (c.nType == ChangeType.LeaderboardStarted
    || c.nType == ChangeType.LeaderboardCanceled || c.nType == ChangeType.LeaderboardTriggered)

/-- The type of the last `LeaderboardStarted`, `LeaderboardCanceled` or `LeaderboardTriggered`
event for the leaderboard id in a sequence of changes, if there is one. -/
def lastTrackerEvent (nId : Nat) (vChanges : List Change) : Option ChangeType :=
  ((vChanges.filter (Change.isTrackerEvent nId)).getLast?).map Change.nType

/-- The host calls `_RA_DoAchievementsFrame` once per frame: `n` successive calls of
`ProcessAchievements`. -/
def ProcessFrames (utest : Bool) : Nat → World → World
  | 0, w => w
  | n + 1, w => ProcessFrames utest n (ProcessAchievements utest w)

/-! ## Frames used as concrete inputs -/

/-- Two frames: attempts on leaderboards 7 and 8 start in the first; in the second the
attempt on 7 is updated and canceled, and the attempt on 8 is submitted and started again. -/
def sampleFrames : List (List Change) :=
  [[{ nType := ChangeType.LeaderboardStarted, nId := 7, nValue := 1 },
    { nType := ChangeType.LeaderboardStarted, nId := 8, nValue := 2 }],
   [{ nType := ChangeType.LeaderboardUpdated, nId := 7, nValue := 3 },
    { nType := ChangeType.LeaderboardCanceled, nId := 7, nValue := 3 },
    { nType := ChangeType.LeaderboardTriggered, nId := 8, nValue := 4 },
    { nType := ChangeType.LeaderboardStarted, nId := 8, nValue := 0 }]]

/-- The sample game, no feature enabled, no tracker, with the sample frames to come. -/
def framesWorld : World :=
  { pGameContext := sampleGame
    pRuntime := { pending := sampleFrames } }

/-- A login request that is refused with a message, and one that is refused without. -/
def refusingServer : Nat → LoginResponse
  | 0 => { Result := ApiResult.Failure, ErrorMessage := "Invalid credentials" }
  | _ => { Result := ApiResult.Failure }

/-- Stored credentials, login enabled, and a remote login call that is refused. -/
def refusedLoginWorld : World :=
  { pConfiguration := { GetUsername := "user", GetApiToken := "token" }
    loginServer := refusingServer }

/-- A logged-in user with Hardcore enabled, a tracker on screen, an achievement loaded in the
editor, and a remote logout call that succeeds. -/
def hardcoreWorld : World :=
  { pGameContext := sampleGame
    pUserContext := { m_sUsername := "user", m_sApiToken := "token", m_nScore := 10 }
    pConfiguration :=
      { GetUsername := "user", GetApiToken := "token"
        IsFeatureEnabled := (fun f => decide (f = Feature.Hardcore)) }
    pEditingAchievement := some 1
    scoreTrackers := fun n => if n = 7 then some "5" else none
    logoutServer := fun _ => { Result := ApiResult.Success } }

/-- A call that handling a change event makes: an emulator pause, an award, a leaderboard
submission, or the call of the runtime that produces the events. -/
def Effect.isChangeDispatch : Effect → Bool
  | Effect.RuntimeProcess => true
  | Effect.Pause => true
  | Effect.AwardAchievement _ => true
  | Effect.SubmitLeaderboardEntry _ _ => true
  | _ => false

/-- How often `AchievementRuntime::Process` was called. -/
def processCalls (log : List Effect) : Nat :=
  log.count Effect.RuntimeProcess

/-- The ids `AwardAchievement` was called with, in the order of the calls. -/
def awardedIds (log : List Effect) : List Nat :=
  log.filterMap fun e =>
    match e with
    | Effect.AwardAchievement nId => some nId
    | _ => none

/-- The id and value `SubmitLeaderboardEntry` was called with, in the order of the calls. -/
def submittedEntries (log : List Effect) : List (Nat × Int) :=
  log.filterMap fun e =>
    match e with
    | Effect.SubmitLeaderboardEntry nId nValue => some (nId, nValue)
    | _ => none

/-- The ids of the `AchievementTriggered` events of a changelog, in order. -/
def triggeredAchievements (vChanges : List Change) : List Nat :=
  vChanges.filterMap fun c =>
    if c.nType = ChangeType.AchievementTriggered then some c.nId else none

/-- The id and value of the `LeaderboardTriggered` events of a changelog, in order. -/
def triggeredLeaderboards (vChanges : List Change) : List (Nat × Int) :=
  vChanges.filterMap fun c =>
    if c.nType = ChangeType.LeaderboardTriggered then some (c.nId, c.nValue) else none

/-- Three frames: two triggers and a submission, an empty changelog, then the same
achievement id and another submission. -/
def triggerFrames : List (List Change) :=
  [[{ nType := ChangeType.AchievementTriggered, nId := 2, nValue := 0 },
    { nType := ChangeType.LeaderboardTriggered, nId := 7, nValue := 5 },
    { nType := ChangeType.AchievementTriggered, nId := 1, nValue := 0 }],
   [],
   [{ nType := ChangeType.LeaderboardTriggered, nId := 8, nValue := 9 },
    { nType := ChangeType.AchievementTriggered, nId := 2, nValue := 0 }]]

/-- The sample game with the trigger frames to come. -/
def triggerWorld : World :=
  { pGameContext := sampleGame
    pRuntime := { pending := triggerFrames } }

/-! ## Theorems -/

/-- What `HandleLoginResponse` does with a response that did not succeed, login enabled. -/
theorem HandleLoginResponse_of_not_succeeded (response : LoginResponse) (w : World)
    (hEnabled : w.pUserContext.IsLoginDisabled = false)
    (hResult : response.Result ≠ ApiResult.Success) :
    HandleLoginResponse response w =
      (w.emit (Effect.HandleLoginResponse response)).emit
        (Effect.ShowErrorMessage "Login Failed"
          (if response.ErrorMessage ≠ "" then response.ErrorMessage
            else "Please login again.")) := by
  unfold HandleLoginResponse
  by_cases hMsg : response.ErrorMessage = "" <;>
    simp [World.emit, LoginResponse.Succeeded, hEnabled, hResult, hMsg]

/-- The effects of `HandleLoginResponse`: its own entry first, then no call of the login request
and no second entry; the number of calls made to the login request stays. -/
theorem HandleLoginResponse_log (response : LoginResponse) (w : World) :
    (HandleLoginResponse response w).loginCalls = w.loginCalls ∧
    ∃ tail : List Effect,
      (HandleLoginResponse response w).log
        = w.log ++ Effect.HandleLoginResponse response :: tail ∧
      ∀ e ∈ tail, e ≠ Effect.LoginCall ∧ ∀ r, e ≠ Effect.HandleLoginResponse r := by
  unfold HandleLoginResponse
  by_cases hDis : w.pUserContext.IsLoginDisabled = true
  · exact ⟨by simp [World.emit, hDis], [], by simp [World.emit, hDis], by simp⟩
  · by_cases hOk : response.Succeeded = true
    · refine ⟨by simp [World.emit, hDis, hOk, World.UserInitialize, World.UserSetScore,
        World.SessionInitialize, _RA_UpdateAppTitle], ?_⟩
      simp only [World.emit, hDis, hOk, World.UserInitialize, World.UserSetScore,
        World.SessionInitialize, _RA_UpdateAppTitle]
      simp
    · by_cases hMsg : response.ErrorMessage = ""
      · exact ⟨by simp [World.emit, hDis, hOk, hMsg], [_],
          by simp [World.emit, hDis, hOk, hMsg]; rfl, by simp⟩
      · exact ⟨by simp [World.emit, hDis, hOk, hMsg], [_],
          by simp [World.emit, hDis, hOk, hMsg]; rfl, by simp⟩

/-- C1: when the runtime is paused, one call of `ProcessAchievements` returns the world it was
given: `Process` is not called (the log gains no entry and the pending changelogs stay), the
emulator is not paused, nothing is awarded or submitted, no message is shown and no score
tracker is added, changed or removed. -/
theorem C1_paused_frame_is_identity (utest : Bool) (w : World)
    (hPaused : w.pRuntime.IsPaused = true) :
    ProcessAchievements utest w = w ∧
    (ProcessAchievements utest w).log = w.log ∧
    (ProcessAchievements utest w).pRuntime.pending = w.pRuntime.pending ∧
    (ProcessAchievements utest w).scoreTrackers = w.scoreTrackers := by
  have hSame : ProcessAchievements utest w = w := by
    unfold ProcessAchievements
    rw [if_pos hPaused]
  rw [hSame]
  exact ⟨rfl, rfl, rfl, rfl⟩

/-- C1 at a paused world whose runtime holds a trigger for a pause-on-trigger achievement and a
leaderboard submission, and whose overlay shows a tracker. -/
theorem C1_paused_frame_is_identity_witness :
    pausedWorld.pRuntime.IsPaused = true ∧
    pausedWorld.pRuntime.pending ≠ [] ∧
    ProcessAchievements false pausedWorld = pausedWorld ∧
    (ProcessAchievements false pausedWorld).log = [] :=
  ⟨rfl, by decide, (C1_paused_frame_is_identity false pausedWorld rfl).1,
    (C1_paused_frame_is_identity false pausedWorld rfl).2.1⟩

/-- The blocking login flow with stored credentials, unfolded: one call of the login request, a
second one exactly when the first result is `Incomplete`, then `HandleLoginResponse` on the
last response. -/
theorem _RA_AttemptLogin_blocking (w : World)
    (hEnabled : w.pUserContext.IsLoginDisabled = false)
    (hUser : w.pConfiguration.GetUsername ≠ "")
    (hToken : w.pConfiguration.GetApiToken ≠ "") :
    _RA_AttemptLogin true w =
      if (w.loginServer w.loginCalls).Result = ApiResult.Incomplete then
        HandleLoginResponse (w.loginServer (w.loginCalls + 1))
          { w with loginCalls := w.loginCalls + 2,
                   log := w.log ++ [Effect.LoginCall, Effect.LoginCall] }
      else
        HandleLoginResponse (w.loginServer w.loginCalls)
          { w with loginCalls := w.loginCalls + 1, log := w.log ++ [Effect.LoginCall] } := by
  unfold _RA_AttemptLogin
  by_cases hInc : (w.loginServer w.loginCalls).Result = ApiResult.Incomplete <;>
    simp [LoginRequest.Call, World.emit, hEnabled, hUser, hToken, hInc]

/-- C2: in the blocking login flow with stored credentials and login enabled, the login request
is called once when its first result is not `Incomplete` and twice when it is, never a third
time, and after the calls `HandleLoginResponse` is entered exactly once, with the response of
the last call. -/
theorem C2_blocking_login_call_count (w : World)
    (hEnabled : w.pUserContext.IsLoginDisabled = false)
    (hUser : w.pConfiguration.GetUsername ≠ "")
    (hToken : w.pConfiguration.GetApiToken ≠ "") :
    ((w.loginServer w.loginCalls).Result ≠ ApiResult.Incomplete →
      (_RA_AttemptLogin true w).loginCalls = w.loginCalls + 1 ∧
      ∃ tail : List Effect,
        (_RA_AttemptLogin true w).log
          = w.log ++ Effect.LoginCall
              :: Effect.HandleLoginResponse (w.loginServer w.loginCalls) :: tail ∧
        ∀ e ∈ tail, e ≠ Effect.LoginCall ∧ ∀ r, e ≠ Effect.HandleLoginResponse r) ∧
    ((w.loginServer w.loginCalls).Result = ApiResult.Incomplete →
      (_RA_AttemptLogin true w).loginCalls = w.loginCalls + 2 ∧
      ∃ tail : List Effect,
        (_RA_AttemptLogin true w).log
          = w.log ++ Effect.LoginCall :: Effect.LoginCall
              :: Effect.HandleLoginResponse (w.loginServer (w.loginCalls + 1)) :: tail ∧
        ∀ e ∈ tail, e ≠ Effect.LoginCall ∧ ∀ r, e ≠ Effect.HandleLoginResponse r) := by
  rw [_RA_AttemptLogin_blocking w hEnabled hUser hToken]
  constructor
  · intro hInc
    rw [if_neg hInc]
    obtain ⟨hCalls, tail, hLog, hTail⟩ := HandleLoginResponse_log (w.loginServer w.loginCalls)
      { w with loginCalls := w.loginCalls + 1, log := w.log ++ [Effect.LoginCall] }
    exact ⟨hCalls, tail, by simpa using hLog, hTail⟩
  · intro hInc
    rw [if_pos hInc]
    obtain ⟨hCalls, tail, hLog, hTail⟩ :=
      HandleLoginResponse_log (w.loginServer (w.loginCalls + 1))
        { w with loginCalls := w.loginCalls + 2,
                 log := w.log ++ [Effect.LoginCall, Effect.LoginCall] }
    exact ⟨hCalls, tail, by simpa using hLog, hTail⟩

/-- C2 at a world whose first login result is `Incomplete`: two calls, one entry into
`HandleLoginResponse`. -/
theorem C2_blocking_login_call_count_witness :
    flakyLoginWorld.pUserContext.IsLoginDisabled = false ∧
    flakyLoginWorld.pConfiguration.GetUsername ≠ "" ∧
    flakyLoginWorld.pConfiguration.GetApiToken ≠ "" ∧
    (flakyLoginWorld.loginServer flakyLoginWorld.loginCalls).Result = ApiResult.Incomplete ∧
    (_RA_AttemptLogin true flakyLoginWorld).loginCalls = flakyLoginWorld.loginCalls + 2 ∧
    ∃ tail : List Effect,
      (_RA_AttemptLogin true flakyLoginWorld).log
        = flakyLoginWorld.log ++ Effect.LoginCall :: Effect.LoginCall
            :: Effect.HandleLoginResponse
                (flakyLoginWorld.loginServer (flakyLoginWorld.loginCalls + 1)) :: tail ∧
      ∀ e ∈ tail, e ≠ Effect.LoginCall ∧ ∀ r, e ≠ Effect.HandleLoginResponse r :=
  ⟨rfl, by decide, by decide, rfl,
    (C2_blocking_login_call_count flakyLoginWorld rfl (by decide) (by decide)).2 rfl⟩

/-- What `UserContext::Logout` does when the user is logged in and the call did not succeed. -/
theorem Logout_of_not_succeeded (IsLoggedIn : UserContext → Bool) (utest : Bool) (w : World)
    (hLogged : IsLoggedIn w.pUserContext = true)
    (hResult : (w.logoutServer w.logoutCalls).Result ≠ ApiResult.Success) :
    UserContext.Logout IsLoggedIn utest w =
      { w with logoutCalls := w.logoutCalls + 1,
               log := w.log ++ [Effect.LogoutCall,
                 Effect.ShowErrorMessage "Logout failed"
                   (w.logoutServer w.logoutCalls).ErrorMessage] } := by
  simp [UserContext.Logout, LogoutRequest.Call, World.emit, LogoutResponse.Succeeded, hLogged,
    hResult]

/-- C3, counterexample: the remote call does not complete.  The blocking login flow ends with a
'Login Failed' error box showing the message of the `Incomplete` response, and the logout flow
ends with a 'Logout failed' error box showing it. -/
theorem C3_counterexample :
    (flakyLoginWorld.loginServer 0).Result = ApiResult.Incomplete ∧
    (flakyLoginWorld.loginServer 1).Result = ApiResult.Incomplete ∧
    (_RA_AttemptLogin true flakyLoginWorld).log =
      [Effect.LoginCall, Effect.LoginCall,
       Effect.HandleLoginResponse { Result := ApiResult.Incomplete, ErrorMessage := "timeout" },
       Effect.ShowErrorMessage "Login Failed" "timeout"] ∧
    (flakyLogoutWorld.logoutServer 0).Result = ApiResult.Incomplete ∧
    (UserContext.Logout hasApiToken false flakyLogoutWorld).log =
      [Effect.LogoutCall, Effect.ShowErrorMessage "Logout failed" "timeout"] := by
  refine ⟨rfl, rfl, ?_, rfl, ?_⟩
  · rw [_RA_AttemptLogin_blocking flakyLoginWorld rfl (by decide) (by decide)]
    rw [if_pos (by rfl), HandleLoginResponse_of_not_succeeded _ _ rfl (by decide)]
    simp [World.emit, flakyLoginWorld, flakyServer]
  · rw [Logout_of_not_succeeded hasApiToken false flakyLogoutWorld (by decide) (by decide)]
    simp [flakyLogoutWorld]

/-- C3, amended: in the blocking login flow a first `Incomplete` response is retried and not
shown: when the second response succeeds the flow shows no error box.  An `Incomplete` response
that ends a flow is shown: the second one of the login flow in a 'Login Failed' error box, the
only one of the logout flow in a 'Logout failed' error box. -/
theorem C3_incomplete_shown_when_last (IsLoggedIn : UserContext → Bool) (utest : Bool)
    (w : World)
    (hEnabled : w.pUserContext.IsLoginDisabled = false)
    (hUser : w.pConfiguration.GetUsername ≠ "")
    (hToken : w.pConfiguration.GetApiToken ≠ "")
    (hLogged : IsLoggedIn w.pUserContext = true) :
    ((w.loginServer w.loginCalls).Result = ApiResult.Incomplete →
      (w.loginServer (w.loginCalls + 1)).Result = ApiResult.Success →
      ∀ e ∈ (_RA_AttemptLogin true w).log.drop w.log.length, e.isErrorMessage = false) ∧
    ((w.loginServer w.loginCalls).Result = ApiResult.Incomplete →
      (w.loginServer (w.loginCalls + 1)).Result = ApiResult.Incomplete →
      (_RA_AttemptLogin true w).log =
        w.log ++ [Effect.LoginCall, Effect.LoginCall,
          Effect.HandleLoginResponse (w.loginServer (w.loginCalls + 1)),
          Effect.ShowErrorMessage "Login Failed"
            (if (w.loginServer (w.loginCalls + 1)).ErrorMessage ≠ "" then
              (w.loginServer (w.loginCalls + 1)).ErrorMessage
            else "Please login again.")]) ∧
    ((w.logoutServer w.logoutCalls).Result = ApiResult.Incomplete →
      (UserContext.Logout IsLoggedIn utest w).log =
        w.log ++ [Effect.LogoutCall,
          Effect.ShowErrorMessage "Logout failed"
            (w.logoutServer w.logoutCalls).ErrorMessage]) := by
  refine ⟨?_, ?_, ?_⟩
  · intro h1 h2
    rw [_RA_AttemptLogin_blocking w hEnabled hUser hToken, if_pos h1]
    simp [HandleLoginResponse, LoginResponse.Succeeded, World.emit, World.UserInitialize,
      World.UserSetScore, World.SessionInitialize, _RA_UpdateAppTitle, hEnabled, h2,
      Effect.isErrorMessage]
  · intro h1 h2
    rw [_RA_AttemptLogin_blocking w hEnabled hUser hToken, if_pos h1,
      HandleLoginResponse_of_not_succeeded _ _ (by exact hEnabled) (by rw [h2]; decide)]
    simp [World.emit]
  · intro h
    rw [Logout_of_not_succeeded IsLoggedIn utest w hLogged (by rw [h]; decide)]

/-- C3, amended, at a world where neither remote call completes: both error boxes. -/
theorem C3_incomplete_shown_when_last_witness :
    flakyLogoutWorld.pUserContext.IsLoginDisabled = false ∧
    flakyLogoutWorld.pConfiguration.GetUsername ≠ "" ∧
    flakyLogoutWorld.pConfiguration.GetApiToken ≠ "" ∧
    hasApiToken flakyLogoutWorld.pUserContext = true ∧
    (_RA_AttemptLogin true flakyLogoutWorld).log =
      flakyLogoutWorld.log ++ [Effect.LoginCall, Effect.LoginCall,
        Effect.HandleLoginResponse
          (flakyLogoutWorld.loginServer (flakyLogoutWorld.loginCalls + 1)),
        Effect.ShowErrorMessage "Login Failed"
          (if (flakyLogoutWorld.loginServer (flakyLogoutWorld.loginCalls + 1)).ErrorMessage ≠ ""
            then (flakyLogoutWorld.loginServer (flakyLogoutWorld.loginCalls + 1)).ErrorMessage
            else "Please login again.")] ∧
    (UserContext.Logout hasApiToken false flakyLogoutWorld).log =
      flakyLogoutWorld.log ++ [Effect.LogoutCall,
        Effect.ShowErrorMessage "Logout failed"
          (flakyLogoutWorld.logoutServer flakyLogoutWorld.logoutCalls).ErrorMessage] :=
  ⟨rfl, by decide, by decide, by decide,
    (C3_incomplete_shown_when_last hasApiToken false flakyLogoutWorld rfl (by decide)
      (by decide) (by decide)).2.1 rfl rfl,
    (C3_incomplete_shown_when_last hasApiToken false flakyLogoutWorld rfl (by decide)
      (by decide) (by decide)).2.2 rfl⟩

/-- C4: when the successive results of the login request are `Incomplete`, `Incomplete`,
`Success`, the blocking login flow with stored credentials makes two calls and no third,
`HandleLoginResponse` receives the second, `Incomplete`, response and never the successful
one, `Initialize` and `SetScore` are not called, the user context and the session tracker stay
as they were, and a 'Login Failed' error box is the last thing the flow does. -/
theorem C4_two_incompletes_fail_login (w : World)
    (hEnabled : w.pUserContext.IsLoginDisabled = false)
    (hUser : w.pConfiguration.GetUsername ≠ "")
    (hToken : w.pConfiguration.GetApiToken ≠ "")
    (h1 : (w.loginServer w.loginCalls).Result = ApiResult.Incomplete)
    (h2 : (w.loginServer (w.loginCalls + 1)).Result = ApiResult.Incomplete)
    (h3 : (w.loginServer (w.loginCalls + 2)).Result = ApiResult.Success) :
    (_RA_AttemptLogin true w).loginCalls = w.loginCalls + 2 ∧
    (_RA_AttemptLogin true w).log =
      w.log ++ [Effect.LoginCall, Effect.LoginCall,
        Effect.HandleLoginResponse (w.loginServer (w.loginCalls + 1)),
        Effect.ShowErrorMessage "Login Failed"
          (if (w.loginServer (w.loginCalls + 1)).ErrorMessage ≠ "" then
            (w.loginServer (w.loginCalls + 1)).ErrorMessage
          else "Please login again.")] ∧
    Effect.HandleLoginResponse (w.loginServer (w.loginCalls + 2))
      ∉ (_RA_AttemptLogin true w).log.drop w.log.length ∧
    (_RA_AttemptLogin true w).pUserContext = w.pUserContext ∧
    (_RA_AttemptLogin true w).sessionUser = w.sessionUser := by
  have hne : w.loginServer (w.loginCalls + 2) ≠ w.loginServer (w.loginCalls + 1) := by
    intro h
    rw [h, h2] at h3
    exact absurd h3 (by decide)
  rw [_RA_AttemptLogin_blocking w hEnabled hUser hToken, if_pos h1,
    HandleLoginResponse_of_not_succeeded _ _ (by exact hEnabled) (by rw [h2]; decide)]
  simp [World.emit, hne]

/-- C4 at a world whose login request returns `Incomplete`, `Incomplete`, `Success`. -/
theorem C4_two_incompletes_fail_login_witness :
    (flakyLoginWorld.loginServer (flakyLoginWorld.loginCalls + 2)).Result = ApiResult.Success ∧
    (_RA_AttemptLogin true flakyLoginWorld).loginCalls = flakyLoginWorld.loginCalls + 2 ∧
    (_RA_AttemptLogin true flakyLoginWorld).log =
      flakyLoginWorld.log ++ [Effect.LoginCall, Effect.LoginCall,
        Effect.HandleLoginResponse (flakyLoginWorld.loginServer (flakyLoginWorld.loginCalls + 1)),
        Effect.ShowErrorMessage "Login Failed"
          (if (flakyLoginWorld.loginServer (flakyLoginWorld.loginCalls + 1)).ErrorMessage ≠ ""
            then (flakyLoginWorld.loginServer (flakyLoginWorld.loginCalls + 1)).ErrorMessage
            else "Please login again.")] ∧
    Effect.HandleLoginResponse (flakyLoginWorld.loginServer (flakyLoginWorld.loginCalls + 2))
      ∉ (_RA_AttemptLogin true flakyLoginWorld).log.drop flakyLoginWorld.log.length ∧
    (_RA_AttemptLogin true flakyLoginWorld).pUserContext = flakyLoginWorld.pUserContext ∧
    (_RA_AttemptLogin true flakyLoginWorld).sessionUser = flakyLoginWorld.sessionUser :=
  ⟨rfl, C4_two_incompletes_fail_login flakyLoginWorld rfl (by decide) (by decide) rfl rfl rfl⟩

/-- The achievement that `FindAchievement` returns has the id that was looked up. -/
theorem FindAchievement_ID (g : GameContext) (nId p : Nat) (a : Achievement)
    (h : g.FindAchievement nId = some (p, a)) : a.ID = nId := by
  have := List.find?_some h
  simpa using this

/-- The leaderboard that `FindLeaderboard` returns has the id that was looked up. -/
theorem FindLeaderboard_ID (g : GameContext) (nId : Nat) (lb : Leaderboard)
    (h : g.FindLeaderboard nId = some lb) : lb.ID = nId := by
  have := List.find?_some h
  simpa using this

/-- The award touches nothing but the log, where it adds its own entry and, when the id names an
achievement, the notification. -/
theorem AwardAchievement_frame (w : World) (nId : Nat) :
    (w.AwardAchievement nId).pRuntime = w.pRuntime ∧
    (w.AwardAchievement nId).pGameContext = w.pGameContext ∧
    (w.AwardAchievement nId).pConfiguration = w.pConfiguration ∧
    (w.AwardAchievement nId).pEditingAchievement = w.pEditingAchievement ∧
    (w.AwardAchievement nId).scoreTrackers = w.scoreTrackers ∧
    (w.AwardAchievement nId).log =
      w.log ++ Effect.AwardAchievement nId
        :: (if (w.pGameContext.FindAchievement nId).isSome then
              [Effect.SurfaceNotification nId] else []) := by
  unfold World.AwardAchievement
  cases h : w.pGameContext.FindAchievement nId <;> simp [World.emit, h]

/-- What `AwardAchievement` does for an id that names an achievement of the game. -/
theorem AwardAchievement_of_found (w : World) (nId p : Nat) (a : Achievement)
    (hFound : w.pGameContext.FindAchievement nId = some (p, a)) :
    w.AwardAchievement nId =
      { w with log := w.log ++ [Effect.AwardAchievement nId, Effect.SurfaceNotification nId] } := by
  simp [World.AwardAchievement, World.emit, hFound]

/-- C5: for an `AchievementTriggered` event whose id names an achievement of the game context,
`AwardAchievement(id)` is called exactly once, first, and with it the achievement is marked
awarded and its notification surfaced; outside the test build the achievements dialog is
reloaded, and the editor too when it shows that achievement; then, exactly when the achievement
has pause-on-trigger set, the emulator is paused and the message 'Pause on Trigger: title' is
shown.  So a pause is requested exactly when pause-on-trigger is set, and a notification is
surfaced whether it is set or not. -/
theorem C5_achievement_triggered (utest : Bool) (w : World) (nId : Nat) (nValue : Int)
    (p : Nat) (a : Achievement)
    (hFound : w.pGameContext.FindAchievement nId = some (p, a)) :
    a.ID = nId ∧
    (ProcessChange utest w
        { nType := ChangeType.AchievementTriggered, nId := nId, nValue := nValue }).log
      = w.log ++ [Effect.AwardAchievement nId, Effect.SurfaceNotification nId]
        ++ (if utest then []
            else Effect.ReloadLBXData nId
              :: (if w.pEditingAchievement = some p then [Effect.LoadAchievement p] else []))
        ++ (if a.PauseOnTrigger then
              [Effect.Pause, Effect.ShowMessage ("Pause on Trigger: " ++ a.Title)]
            else []) ∧
    ((ProcessChange utest w
        { nType := ChangeType.AchievementTriggered, nId := nId, nValue := nValue }).log.drop
          w.log.length).count (Effect.AwardAchievement nId) = 1 ∧
    (Effect.Pause ∈ (ProcessChange utest w
        { nType := ChangeType.AchievementTriggered, nId := nId, nValue := nValue }).log.drop
          w.log.length
      ↔ a.PauseOnTrigger = true) ∧
    ∃ e ∈ (ProcessChange utest w
        { nType := ChangeType.AchievementTriggered, nId := nId, nValue := nValue }).log.drop
          w.log.length, e.isNotification = true := by
  have hID := FindAchievement_ID _ _ _ _ hFound
  have hLog : (ProcessChange utest w
        { nType := ChangeType.AchievementTriggered, nId := nId, nValue := nValue }).log
      = w.log ++ ([Effect.AwardAchievement nId, Effect.SurfaceNotification nId]
        ++ (if utest then []
            else Effect.ReloadLBXData nId
              :: (if w.pEditingAchievement = some p then [Effect.LoadAchievement p] else []))
        ++ (if a.PauseOnTrigger then
              [Effect.Pause, Effect.ShowMessage ("Pause on Trigger: " ++ a.Title)]
            else [])) := by
    simp only [ProcessChange, AwardAchievement_of_found w nId p a hFound, hFound]
    cases utest <;> cases hP : a.PauseOnTrigger <;>
      by_cases hE : w.pEditingAchievement = some p <;>
      by_cases hR : (w.pGameContext.HasRichPresence && !w.pGameContext.IsRichPresenceFromFile)
        = true <;>
      simp [World.emit, World.SetUnlockRichPresence, hID, hE, hR]
  refine ⟨hID, by rw [hLog]; simp, ?_, ?_, ?_⟩
  · rw [hLog, List.drop_left]
    cases utest <;> cases a.PauseOnTrigger <;>
      by_cases hE : w.pEditingAchievement = some p <;> simp [hE, List.count_cons]
  · rw [hLog, List.drop_left]
    cases utest <;> cases a.PauseOnTrigger <;>
      by_cases hE : w.pEditingAchievement = some p <;> simp [hE]
  · rw [hLog, List.drop_left]
    exact ⟨Effect.SurfaceNotification nId, by simp, rfl⟩

/-- C5 at achievement 2 of the sample game, which has pause-on-trigger set, and at
achievement 1, which has not: one award and its notification in both cases, the pause and its
message only for achievement 2. -/
theorem C5_achievement_triggered_witness :
    sampleWorld.pGameContext.FindAchievement 2
      = some (1, { ID := 2, Title := "Boss Rush", PauseOnTrigger := true, PauseOnReset := true }) ∧
    (ProcessChange true sampleWorld
        { nType := ChangeType.AchievementTriggered, nId := 2, nValue := 0 }).log
      = [Effect.AwardAchievement 2, Effect.SurfaceNotification 2, Effect.Pause,
         Effect.ShowMessage ("Pause on Trigger: " ++ "Boss Rush")] ∧
    sampleWorld.pGameContext.FindAchievement 1
      = some (0, { ID := 1, Title := "First Steps", PauseOnTrigger := false }) ∧
    (ProcessChange true sampleWorld
        { nType := ChangeType.AchievementTriggered, nId := 1, nValue := 0 }).log
      = [Effect.AwardAchievement 1, Effect.SurfaceNotification 1] :=
  ⟨by decide,
    (C5_achievement_triggered true sampleWorld 2 0 1
      { ID := 2, Title := "Boss Rush", PauseOnTrigger := true, PauseOnReset := true }
      (by decide)).2.1,
    by decide,
    (C5_achievement_triggered true sampleWorld 1 0 0
      { ID := 1, Title := "First Steps", PauseOnTrigger := false } (by decide)).2.1⟩

/-- C6: handling a `LeaderboardTriggered` event calls `SubmitLeaderboardEntry` exactly once, with
the id and value of the event, and nothing else; when the call returns the tracker of that id is
gone and every other tracker is as before.  Nothing depends on the outcome of the submission
or on the id naming a leaderboard of the game context. -/
theorem C6_leaderboard_triggered (utest : Bool) (w : World) (nId : Nat) (nValue : Int) :
    (ProcessChange utest w
        { nType := ChangeType.LeaderboardTriggered, nId := nId, nValue := nValue }).log
      = w.log ++ [Effect.SubmitLeaderboardEntry nId nValue] ∧
    (ProcessChange utest w
        { nType := ChangeType.LeaderboardTriggered, nId := nId, nValue := nValue }).GetScoreTracker
      nId = none ∧
    ∀ j, j ≠ nId →
      (ProcessChange utest w
          { nType := ChangeType.LeaderboardTriggered, nId := nId, nValue := nValue }).GetScoreTracker
        j = w.GetScoreTracker j := by
  refine ⟨by simp [ProcessChange, World.emit, World.RemoveScoreTracker], ?_, ?_⟩
  · simp [ProcessChange, World.emit, World.RemoveScoreTracker, World.GetScoreTracker]
  · intro j hj
    simp [ProcessChange, World.emit, World.RemoveScoreTracker, World.GetScoreTracker,
      Function.update_noteq hj]

/-- C7: for a `LeaderboardStarted` event whose id names a leaderboard of the game context, with
the `LeaderboardNotifications` feature enabled, the sound is played and the popup
'Leaderboard Attempt Started' with the title and description of the leaderboard is queued, and
afterwards the tracker keyed by the id of the leaderboard shows `FormatScore(value)` of that
leaderboard, the other trackers being as before.  When the id names no leaderboard the
event changes nothing. -/
theorem C7_leaderboard_started (utest : Bool) (w : World) (nId : Nat) (nValue : Int) :
    (∀ lb : Leaderboard, w.pGameContext.FindLeaderboard nId = some lb →
      w.pConfiguration.IsFeatureEnabled Feature.LeaderboardNotifications = true →
      lb.ID = nId ∧
      (ProcessChange utest w
          { nType := ChangeType.LeaderboardStarted, nId := nId, nValue := nValue }).log
        = w.log ++ [Effect.PlayAudioFile "Overlay\\lb.wav",
            Effect.QueueMessage "Leaderboard Attempt Started" lb.Title lb.Description none] ∧
      (ProcessChange utest w
          { nType := ChangeType.LeaderboardStarted, nId := nId, nValue := nValue }).GetScoreTracker
        lb.ID = some (lb.FormatScore nValue) ∧
      ∀ j, j ≠ lb.ID →
        (ProcessChange utest w
            { nType := ChangeType.LeaderboardStarted, nId := nId, nValue := nValue }).GetScoreTracker
          j = w.GetScoreTracker j) ∧
    (w.pGameContext.FindLeaderboard nId = none →
      ProcessChange utest w
        { nType := ChangeType.LeaderboardStarted, nId := nId, nValue := nValue } = w) := by
  constructor
  · intro lb hFound hOn
    refine ⟨FindLeaderboard_ID _ _ _ hFound, ?_, ?_, ?_⟩
    · simp [ProcessChange, World.emit, World.AddScoreTracker, World.SetDisplayText, hFound, hOn]
    · simp [ProcessChange, World.emit, World.AddScoreTracker, World.SetDisplayText,
        World.GetScoreTracker, hFound, hOn]
    · intro j hj
      simp [ProcessChange, World.emit, World.AddScoreTracker, World.SetDisplayText,
        World.GetScoreTracker, hFound, hOn, Function.update_noteq hj]
  · intro hNone
    simp [ProcessChange, hNone]

/-- C7 at leaderboard 8 of the sample game with notifications enabled, and at id 9, which
names no leaderboard. -/
theorem C7_leaderboard_started_witness :
    notifyingWorld.pGameContext.FindLeaderboard 9 = none ∧
    (ProcessChange false notifyingWorld
        { nType := ChangeType.LeaderboardStarted, nId := 9, nValue := 42 } = notifyingWorld) ∧
    ∃ lb : Leaderboard, notifyingWorld.pGameContext.FindLeaderboard 8 = some lb ∧
      lb.Title = "High Score" ∧
      (ProcessChange false notifyingWorld
          { nType := ChangeType.LeaderboardStarted, nId := 8, nValue := 42 }).log
        = notifyingWorld.log ++ [Effect.PlayAudioFile "Overlay\\lb.wav",
            Effect.QueueMessage "Leaderboard Attempt Started" lb.Title lb.Description none] ∧
      (ProcessChange false notifyingWorld
          { nType := ChangeType.LeaderboardStarted, nId := 8, nValue := 42 }).GetScoreTracker
        lb.ID = some (lb.FormatScore 42) :=
  ⟨rfl, (C7_leaderboard_started false notifyingWorld 9 42).2 rfl,
    _, rfl, rfl,
    ((C7_leaderboard_started false notifyingWorld 8 42).1 _ rfl rfl).2.1,
    ((C7_leaderboard_started false notifyingWorld 8 42).1 _ rfl rfl).2.2.1⟩

/-- C9: for a `LeaderboardCanceled` event whose id names a leaderboard of the game context, the
popup 'Leaderboard Attempt Canceled' is queued (and its sound played) when the
`LeaderboardCancelNotifications` feature is enabled and nothing is surfaced when it is not;
in both cases the tracker of that leaderboard is gone afterwards and the other trackers are
as before.  When the id names no leaderboard the event changes nothing. -/
theorem C9_leaderboard_canceled (utest : Bool) (w : World) (nId : Nat) (nValue : Int) :
    (∀ lb : Leaderboard, w.pGameContext.FindLeaderboard nId = some lb →
      lb.ID = nId ∧
      (ProcessChange utest w
          { nType := ChangeType.LeaderboardCanceled, nId := nId, nValue := nValue }).log
        = w.log ++
          (if w.pConfiguration.IsFeatureEnabled Feature.LeaderboardCancelNotifications then
            [Effect.PlayAudioFile "Overlay\\lbcancel.wav",
             Effect.QueueMessage "Leaderboard Attempt Canceled" lb.Title lb.Description none]
          else []) ∧
      ((∃ e ∈ (ProcessChange utest w
            { nType := ChangeType.LeaderboardCanceled, nId := nId, nValue := nValue }).log.drop
              w.log.length, e.isNotification = true)
        ↔ w.pConfiguration.IsFeatureEnabled Feature.LeaderboardCancelNotifications = true) ∧
      (ProcessChange utest w
          { nType := ChangeType.LeaderboardCanceled, nId := nId, nValue := nValue }).GetScoreTracker
        lb.ID = none ∧
      ∀ j, j ≠ lb.ID →
        (ProcessChange utest w
            { nType := ChangeType.LeaderboardCanceled, nId := nId, nValue := nValue }).GetScoreTracker
          j = w.GetScoreTracker j) ∧
    (w.pGameContext.FindLeaderboard nId = none →
      ProcessChange utest w
        { nType := ChangeType.LeaderboardCanceled, nId := nId, nValue := nValue } = w) := by
  constructor
  · intro lb hFound
    refine ⟨FindLeaderboard_ID _ _ _ hFound, ?_, ?_, ?_, ?_⟩
    · cases hOn : w.pConfiguration.IsFeatureEnabled Feature.LeaderboardCancelNotifications <;>
        simp [ProcessChange, World.emit, World.RemoveScoreTracker, hFound, hOn]
    · cases hOn : w.pConfiguration.IsFeatureEnabled Feature.LeaderboardCancelNotifications <;>
        simp [ProcessChange, World.emit, World.RemoveScoreTracker, hFound, hOn,
          Effect.isNotification]
    · cases hOn : w.pConfiguration.IsFeatureEnabled Feature.LeaderboardCancelNotifications <;>
        simp [ProcessChange, World.emit, World.RemoveScoreTracker, World.GetScoreTracker,
          hFound, hOn]
    · intro j hj
      cases hOn : w.pConfiguration.IsFeatureEnabled Feature.LeaderboardCancelNotifications <;>
        simp [ProcessChange, World.emit, World.RemoveScoreTracker, World.GetScoreTracker,
          hFound, hOn, Function.update_noteq hj]
  · intro hNone
    simp [ProcessChange, hNone]

/-- C9 at leaderboard 7 of the sample game, which has a tracker, with cancel notifications
enabled, and at id 9, which names no leaderboard. -/
theorem C9_leaderboard_canceled_witness :
    notifyingWorld.pGameContext.FindLeaderboard 9 = none ∧
    (ProcessChange false notifyingWorld
        { nType := ChangeType.LeaderboardCanceled, nId := 9, nValue := 0 } = notifyingWorld) ∧
    notifyingWorld.GetScoreTracker 7 = some "5" ∧
    ∃ lb : Leaderboard, notifyingWorld.pGameContext.FindLeaderboard 7 = some lb ∧
      (ProcessChange false notifyingWorld
          { nType := ChangeType.LeaderboardCanceled, nId := 7, nValue := 0 }).GetScoreTracker
        lb.ID = none :=
  ⟨rfl, (C9_leaderboard_canceled false notifyingWorld 9 0).2 rfl, rfl,
    _, rfl, ((C9_leaderboard_canceled false notifyingWorld 7 0).1 _ rfl).2.2.2.1⟩

/-- C10: for a `LeaderboardUpdated` event, when the id names a leaderboard of the game context
and a tracker for the id exists, the only change is that this tracker shows `FormatScore(value)`
of the leaderboard; when the id names no leaderboard or no tracker for it exists, nothing
changes.  In every case no call into a collaborator is made (so no notification), a tracker
exists afterwards exactly where one existed before, and the trackers of other ids keep their
text. -/
theorem C10_leaderboard_updated (utest : Bool) (w : World) (nId : Nat) (nValue : Int) :
    (∀ (lb : Leaderboard) (sText : String), w.pGameContext.FindLeaderboard nId = some lb →
      w.GetScoreTracker nId = some sText →
      ProcessChange utest w
          { nType := ChangeType.LeaderboardUpdated, nId := nId, nValue := nValue }
        = { w with scoreTrackers :=
              Function.update w.scoreTrackers nId (some (lb.FormatScore nValue)) }) ∧
    (w.pGameContext.FindLeaderboard nId = none ∨ w.GetScoreTracker nId = none →
      ProcessChange utest w
          { nType := ChangeType.LeaderboardUpdated, nId := nId, nValue := nValue } = w) ∧
    (ProcessChange utest w
        { nType := ChangeType.LeaderboardUpdated, nId := nId, nValue := nValue }).log = w.log ∧
    (∀ j, ((ProcessChange utest w
        { nType := ChangeType.LeaderboardUpdated, nId := nId, nValue := nValue }).GetScoreTracker
          j).isSome = (w.GetScoreTracker j).isSome) ∧
    ∀ j, j ≠ nId →
      (ProcessChange utest w
          { nType := ChangeType.LeaderboardUpdated, nId := nId, nValue := nValue }).GetScoreTracker
        j = w.GetScoreTracker j := by
  cases hFound : w.pGameContext.FindLeaderboard nId with
  | none => simp [ProcessChange, hFound]
  | some lb =>
    cases hTracker : w.scoreTrackers nId with
    | none => simp [ProcessChange, World.GetScoreTracker, hFound, hTracker]
    | some sText =>
      refine ⟨?_, ?_, ?_, ?_, ?_⟩
      · intro lb2 sText2 h2 _
        cases h2
        simp [ProcessChange, World.GetScoreTracker, World.SetDisplayText, hFound, hTracker]
      · simp [World.GetScoreTracker, hTracker]
      · simp [ProcessChange, World.GetScoreTracker, World.SetDisplayText, hFound, hTracker]
      · intro j
        by_cases hj : j = nId
        · subst hj
          simp [ProcessChange, World.GetScoreTracker, World.SetDisplayText, hFound, hTracker]
        · simp [ProcessChange, World.GetScoreTracker, World.SetDisplayText, hFound, hTracker,
            Function.update_noteq hj]
      · intro j hj
        simp [ProcessChange, World.GetScoreTracker, World.SetDisplayText, hFound, hTracker,
          Function.update_noteq hj]

/-- C10 at leaderboard 7 of the sample game, which has a tracker, and at leaderboard 8, which
has none. -/
theorem C10_leaderboard_updated_witness :
    notifyingWorld.GetScoreTracker 8 = none ∧
    (ProcessChange false notifyingWorld
        { nType := ChangeType.LeaderboardUpdated, nId := 8, nValue := 42 } = notifyingWorld) ∧
    notifyingWorld.GetScoreTracker 7 = some "5" ∧
    ∃ lb : Leaderboard, notifyingWorld.pGameContext.FindLeaderboard 7 = some lb ∧
      ProcessChange false notifyingWorld
          { nType := ChangeType.LeaderboardUpdated, nId := 7, nValue := 42 }
        = { notifyingWorld with
            scoreTrackers :=
              Function.update notifyingWorld.scoreTrackers 7 (some (lb.FormatScore 42)) } :=
  ⟨rfl, (C10_leaderboard_updated false notifyingWorld 8 42).2.1 (Or.inr rfl), rfl,
    _, rfl, (C10_leaderboard_updated false notifyingWorld 7 42).1 _ "5" rfl rfl⟩

/-- Handling one change leaves the runtime and the leaderboards of the game as they are. -/
theorem ProcessChange_frame (utest : Bool) (w : World) (c : Change) :
    (ProcessChange utest w c).pRuntime = w.pRuntime ∧
    (ProcessChange utest w c).pGameContext.m_vLeaderboards
      = w.pGameContext.m_vLeaderboards := by
  obtain ⟨t, nId, nValue⟩ := c
  obtain ⟨a1, a2, -, a4, -, -⟩ := AwardAchievement_frame w nId
  cases t <;> simp only [ProcessChange, a2, a4] <;> constructor <;>
    (repeat' split) <;>
    simp [World.emit, World.SetUnlockRichPresence, World.AddScoreTracker, World.SetDisplayText,
      World.RemoveScoreTracker, a1, a2]

/-- Whether a tracker for the id exists after one change: a `LeaderboardStarted` event for the
id creates it, a `LeaderboardCanceled` or `LeaderboardTriggered` event for the id removes it,
any other change leaves it. -/
theorem ProcessChange_tracked (utest : Bool) (w : World) (c : Change) (nId : Nat)
    (hKnown : c.isLeaderboardEvent = true → w.pGameContext.FindLeaderboard c.nId ≠ none) :
    ((ProcessChange utest w c).scoreTrackers nId).isSome
      = if c.isTrackerEvent nId then decide (c.nType = ChangeType.LeaderboardStarted)
        else (w.scoreTrackers nId).isSome := by
  obtain ⟨t, cId, nValue⟩ := c
  cases t
  case AchievementReset =>
    simp only [ProcessChange]
    (repeat' split) <;> simp_all [World.emit, Change.isTrackerEvent]
  case AchievementTriggered =>
    obtain ⟨-, a2, -, a4, a5, -⟩ := AwardAchievement_frame w cId
    simp only [ProcessChange, a2, a4]
    (repeat' split) <;>
      simp_all [World.emit, World.SetUnlockRichPresence, Change.isTrackerEvent]
  case LeaderboardStarted =>
    cases hFound : w.pGameContext.FindLeaderboard cId with
    | none => exact absurd hFound (hKnown (by simp [Change.isLeaderboardEvent]))
    | some lb =>
      have hID := FindLeaderboard_ID _ _ _ hFound
      by_cases hj : nId = cId
      · subst hj
        simp [ProcessChange, World.AddScoreTracker, World.SetDisplayText, hFound, hID,
          Change.isTrackerEvent]
      · have hj2 : ¬ cId = nId := fun h => hj h.symm
        simp only [ProcessChange, World.AddScoreTracker, World.SetDisplayText, hFound, hID]
        (repeat' split) <;>
          simp_all [World.emit, Change.isTrackerEvent, Function.update_noteq hj]
  case LeaderboardUpdated =>
    simp only [ProcessChange, World.GetScoreTracker]
    by_cases hj : nId = cId
    · subst hj
      (repeat' split) <;>
        simp_all [World.SetDisplayText, Change.isTrackerEvent]
    · (repeat' split) <;>
        simp_all [World.SetDisplayText, Change.isTrackerEvent, Function.update_noteq hj]
  case LeaderboardCanceled =>
    cases hFound : w.pGameContext.FindLeaderboard cId with
    | none => exact absurd hFound (hKnown (by simp [Change.isLeaderboardEvent]))
    | some lb =>
      have hID := FindLeaderboard_ID _ _ _ hFound
      by_cases hj : nId = cId
      · subst hj
        simp [ProcessChange, World.RemoveScoreTracker, hFound, hID, Change.isTrackerEvent]
      · have hj2 : ¬ cId = nId := fun h => hj h.symm
        simp only [ProcessChange, World.RemoveScoreTracker, hFound, hID]
        (repeat' split) <;>
          simp_all [World.emit, Change.isTrackerEvent, Function.update_noteq hj]
  case LeaderboardTriggered =>
    by_cases hj : nId = cId
    · subst hj
      simp [ProcessChange, World.RemoveScoreTracker, World.emit, Change.isTrackerEvent]
    · have hj2 : ¬ cId = nId := fun h => hj h.symm
      simp [ProcessChange, World.RemoveScoreTracker, World.emit, Change.isTrackerEvent,
        Function.update_noteq hj, hj2]

/-- The last tracker event of a sequence followed by another: the last one of the second
sequence if it has one, else the last one of the first. -/
theorem lastTrackerEvent_append (nId : Nat) (xs ys : List Change) :
    lastTrackerEvent nId (xs ++ ys)
      = (lastTrackerEvent nId ys).or (lastTrackerEvent nId xs) := by
  unfold lastTrackerEvent
  rw [List.filter_append, List.getLast?_append]
  cases (List.filter (Change.isTrackerEvent nId) ys).getLast? <;> simp

/-- The last tracker event of a one-change sequence. -/
theorem lastTrackerEvent_singleton (nId : Nat) (c : Change) :
    lastTrackerEvent nId [c] = if c.isTrackerEvent nId then some c.nType else none := by
  unfold lastTrackerEvent
  cases h : c.isTrackerEvent nId <;> simp [List.filter, h]

/-- Whether a tracker for the id exists after a sequence of changes, from any world. -/
theorem foldl_ProcessChange_tracked (utest : Bool) (nId : Nat) (vChanges : List Change) :
    ∀ w : World,
      (∀ c ∈ vChanges, c.isLeaderboardEvent = true →
        w.pGameContext.FindLeaderboard c.nId ≠ none) →
      (vChanges.foldl (ProcessChange utest) w).pRuntime = w.pRuntime ∧
      (vChanges.foldl (ProcessChange utest) w).pGameContext.m_vLeaderboards
        = w.pGameContext.m_vLeaderboards ∧
      ((vChanges.foldl (ProcessChange utest) w).scoreTrackers nId).isSome
        = match lastTrackerEvent nId vChanges with
          | some t => decide (t = ChangeType.LeaderboardStarted)
          | none => (w.scoreTrackers nId).isSome := by
  induction vChanges with
  | nil => intro w _; simp [lastTrackerEvent]
  | cons c cs ih =>
    intro w hKnown
    have hStep := ProcessChange_frame utest w c
    have hTracked := ProcessChange_tracked utest w c nId (hKnown c (by simp))
    have hKnown2 : ∀ d ∈ cs, d.isLeaderboardEvent = true →
        (ProcessChange utest w c).pGameContext.FindLeaderboard d.nId ≠ none := by
      intro d hd hLb
      have := hKnown d (by simp [hd]) hLb
      simpa [GameContext.FindLeaderboard, hStep.2] using this
    obtain ⟨h1, h2, h3⟩ := ih (ProcessChange utest w c) hKnown2
    refine ⟨by rw [List.foldl_cons, h1, hStep.1], by rw [List.foldl_cons, h2, hStep.2], ?_⟩
    rw [List.foldl_cons, h3, hTracked]
    have hApp := lastTrackerEvent_append nId [c] cs
    rw [List.singleton_append] at hApp
    rw [hApp, lastTrackerEvent_singleton]
    cases lastTrackerEvent nId cs <;> cases c.isTrackerEvent nId <;> simp

/-- Marking the edited achievement dirty touches neither the runtime nor the game context nor
the score trackers. -/
theorem MarkEditingAchievement_frame (w : World) :
    (MarkEditingAchievement w).pRuntime = w.pRuntime ∧
    (MarkEditingAchievement w).pGameContext = w.pGameContext ∧
    (MarkEditingAchievement w).scoreTrackers = w.scoreTrackers := by
  unfold MarkEditingAchievement
  refine ⟨?_, ?_, ?_⟩ <;> (repeat' split) <;> simp [World.emit]

/-- One unpaused frame: the head of the pending changelogs is taken and handled change by
change. -/
theorem ProcessAchievements_tracked (utest : Bool) (nId : Nat) (w : World)
    (vChanges : List Change) (rest : List (List Change))
    (hRun : w.pRuntime.IsPaused = false)
    (hPending : w.pRuntime.pending = vChanges :: rest)
    (hKnown : ∀ c ∈ vChanges, c.isLeaderboardEvent = true →
      w.pGameContext.FindLeaderboard c.nId ≠ none) :
    (ProcessAchievements utest w).pRuntime.IsPaused = false ∧
    (ProcessAchievements utest w).pRuntime.pending = rest ∧
    (ProcessAchievements utest w).pGameContext.m_vLeaderboards
      = w.pGameContext.m_vLeaderboards ∧
    ((ProcessAchievements utest w).scoreTrackers nId).isSome
      = match lastTrackerEvent nId vChanges with
        | some t => decide (t = ChangeType.LeaderboardStarted)
        | none => (w.scoreTrackers nId).isSome := by
  have key : ∃ w1 : World, ProcessAchievements utest w = vChanges.foldl (ProcessChange utest) w1 ∧
      w1.pRuntime = { w.pRuntime with pending := rest } ∧
      w1.pGameContext = w.pGameContext ∧ w1.scoreTrackers = w.scoreTrackers := by
    obtain ⟨h1, h2, h3⟩ := MarkEditingAchievement_frame w
    cases utest
    · refine ⟨(AchievementRuntime.Process (MarkEditingAchievement w)).2, ?_, ?_, ?_, ?_⟩
      · simp [ProcessAchievements, AchievementRuntime.Process, hRun, h1, hPending]
      · simp [AchievementRuntime.Process, h1, hPending, World.emit]
      · simp [AchievementRuntime.Process, h1, h2, hPending, World.emit]
      · simp [AchievementRuntime.Process, h1, h3, hPending, World.emit]
    · refine ⟨(AchievementRuntime.Process w).2, ?_, ?_, ?_, ?_⟩ <;>
        simp [ProcessAchievements, AchievementRuntime.Process, hRun, hPending, World.emit]
  obtain ⟨w1, hEq, hR, hG, hT⟩ := key
  have hKnown1 : ∀ c ∈ vChanges, c.isLeaderboardEvent = true →
      w1.pGameContext.FindLeaderboard c.nId ≠ none := by
    rw [hG]; exact hKnown
  obtain ⟨h1, h2, h3⟩ := foldl_ProcessChange_tracked utest nId vChanges w1 hKnown1
  rw [hEq, h1, h2, h3, hR, hG, hT]
  exact ⟨hRun, rfl, rfl, rfl⟩

/-- Whether a tracker for the id exists after the pending frames have run, from any world. -/
theorem ProcessFrames_tracked (utest : Bool) (nId : Nat) (frames : List (List Change)) :
    ∀ w : World, w.pRuntime.IsPaused = false → w.pRuntime.pending = frames →
      (∀ c ∈ frames.flatten, c.isLeaderboardEvent = true →
        w.pGameContext.FindLeaderboard c.nId ≠ none) →
      ((ProcessFrames utest frames.length w).scoreTrackers nId).isSome
        = match lastTrackerEvent nId frames.flatten with
          | some t => decide (t = ChangeType.LeaderboardStarted)
          | none => (w.scoreTrackers nId).isSome := by
  induction frames with
  | nil => intro w _ _ _; simp [ProcessFrames, lastTrackerEvent]
  | cons vChanges rest ih =>
    intro w hRun hPending hKnown
    have hHead : ∀ c ∈ vChanges, c.isLeaderboardEvent = true →
        w.pGameContext.FindLeaderboard c.nId ≠ none :=
      fun c hc => hKnown c (by simp [hc])
    obtain ⟨h1, h2, h3, h4⟩ :=
      ProcessAchievements_tracked utest nId w vChanges rest hRun hPending hHead
    have hTail : ∀ c ∈ rest.flatten, c.isLeaderboardEvent = true →
        (ProcessAchievements utest w).pGameContext.FindLeaderboard c.nId ≠ none := by
      intro c hc hLb
      have := hKnown c (by rw [List.flatten_cons]; exact List.mem_append_right _ hc) hLb
      simpa [GameContext.FindLeaderboard, h3] using this
    have hRec := ih (ProcessAchievements utest w) h1 h2 hTail
    rw [List.length_cons, ProcessFrames, hRec, h4, List.flatten_cons, lastTrackerEvent_append]
    cases lastTrackerEvent nId rest.flatten <;> cases lastTrackerEvent nId vChanges <;> simp

/-- C8: start with no score tracker and an unpaused runtime, and let `ProcessAchievements` run
once for each pending changelog, every leaderboard event in them naming a leaderboard of the
game context.  Whatever the features are set to, a tracker for a leaderboard id exists
afterwards if and only if the last `LeaderboardStarted`, `LeaderboardCanceled` or
`LeaderboardTriggered` event for that id is a `LeaderboardStarted`. -/
theorem C8_score_tracker_lifecycle (utest : Bool) (w : World) (frames : List (List Change))
    (nId : Nat)
    (hRun : w.pRuntime.IsPaused = false)
    (hPending : w.pRuntime.pending = frames)
    (hEmpty : ∀ j, w.GetScoreTracker j = none)
    (hKnown : ∀ c ∈ frames.flatten, c.isLeaderboardEvent = true →
      (w.pGameContext.FindLeaderboard c.nId).isSome = true) :
    ((ProcessFrames utest frames.length w).GetScoreTracker nId).isSome = true
      ↔ lastTrackerEvent nId frames.flatten = some ChangeType.LeaderboardStarted := by
  have hKnown2 : ∀ c ∈ frames.flatten, c.isLeaderboardEvent = true →
      w.pGameContext.FindLeaderboard c.nId ≠ none := by
    intro c hc hLb hNone
    have := hKnown c hc hLb
    rw [hNone] at this
    exact absurd this (by simp)
  have hNo : w.scoreTrackers nId = none := hEmpty nId
  unfold World.GetScoreTracker
  rw [ProcessFrames_tracked utest nId frames w hRun hPending hKnown2, hNo]
  cases lastTrackerEvent nId frames.flatten <;> simp

/-- C8 at the sample frames with every notification feature disabled: afterwards leaderboard 8,
started again after its submission, has a tracker and leaderboard 7, canceled, has none. -/
theorem C8_score_tracker_lifecycle_witness :
    framesWorld.pConfiguration.IsFeatureEnabled Feature.LeaderboardNotifications = false ∧
    framesWorld.pRuntime.pending = sampleFrames ∧
    ((ProcessFrames false sampleFrames.length framesWorld).GetScoreTracker 8).isSome = true ∧
    ¬ ((ProcessFrames false sampleFrames.length framesWorld).GetScoreTracker 7).isSome = true :=
  ⟨rfl, rfl,
    (C8_score_tracker_lifecycle false framesWorld sampleFrames 8 rfl rfl (fun _ => rfl)
      (by decide)).2 (by decide),
    fun h => absurd
      ((C8_score_tracker_lifecycle false framesWorld sampleFrames 7 rfl rfl (fun _ => rfl)
        (by decide)).1 h) (by decide)⟩

/-- C11: for an `AchievementReset` event, when the id names an achievement of the game context
that has pause-on-reset set, the emulator is paused and then the message
'Pause on Reset: title' is shown, and that is all; when the id names no achievement, or one
with pause-on-reset unset, nothing changes.  So a pause is requested exactly in the first case,
and in no case is an achievement awarded. -/
theorem C11_achievement_reset (utest : Bool) (w : World) (nId : Nat) (nValue : Int) :
    (∀ (p : Nat) (a : Achievement), w.pGameContext.FindAchievement nId = some (p, a) →
      a.PauseOnReset = true →
      a.ID = nId ∧
      ProcessChange utest w
          { nType := ChangeType.AchievementReset, nId := nId, nValue := nValue }
        = { w with log := w.log ++
              [Effect.Pause, Effect.ShowMessage ("Pause on Reset: " ++ a.Title)] }) ∧
    ((w.pGameContext.FindAchievement nId = none ∨
        ∃ (p : Nat) (a : Achievement),
          w.pGameContext.FindAchievement nId = some (p, a) ∧ a.PauseOnReset = false) →
      ProcessChange utest w
          { nType := ChangeType.AchievementReset, nId := nId, nValue := nValue } = w) ∧
    (Effect.Pause ∈ (ProcessChange utest w
          { nType := ChangeType.AchievementReset, nId := nId, nValue := nValue }).log.drop
            w.log.length
      ↔ ∃ (p : Nat) (a : Achievement),
          w.pGameContext.FindAchievement nId = some (p, a) ∧ a.PauseOnReset = true) ∧
    ∀ nAwarded, Effect.AwardAchievement nAwarded ∉ (ProcessChange utest w
          { nType := ChangeType.AchievementReset, nId := nId, nValue := nValue }).log.drop
            w.log.length := by
  cases hFound : w.pGameContext.FindAchievement nId with
  | none => simp [ProcessChange, hFound]
  | some q =>
    obtain ⟨p, a⟩ := q
    have hID := FindAchievement_ID _ _ _ _ hFound
    cases hP : a.PauseOnReset
    · simp [ProcessChange, World.emit, hFound, hP, hID]
    · simp only [ProcessChange, World.emit, hFound, hP]
      refine ⟨?_, ?_, ?_, by simp⟩
      · intro p2 a2 h2 _
        cases h2
        exact ⟨hID, by simp⟩
      · rintro (h | ⟨p2, a2, h2, hOff⟩)
        · cases h
        · cases h2
          rw [hP] at hOff
          cases hOff
      · constructor
        · intro _
          exact ⟨p, a, rfl, hP⟩
        · intro _
          simp

/-- C11 at achievement 2 of the sample game, which has pause-on-reset set, and at
achievement 1, which has not. -/
theorem C11_achievement_reset_witness :
    ProcessChange false sampleWorld
        { nType := ChangeType.AchievementReset, nId := 2, nValue := 0 }
      = { sampleWorld with log := sampleWorld.log ++
            [Effect.Pause, Effect.ShowMessage ("Pause on Reset: " ++ "Boss Rush")] } ∧
    ProcessChange false sampleWorld
        { nType := ChangeType.AchievementReset, nId := 1, nValue := 0 } = sampleWorld :=
  ⟨((C11_achievement_reset false sampleWorld 2 0).1 1
      { ID := 2, Title := "Boss Rush", PauseOnTrigger := true, PauseOnReset := true }
      (by decide) rfl).2,
    (C11_achievement_reset false sampleWorld 1 0).2.1
      (Or.inr ⟨0, { ID := 1, Title := "First Steps" }, by decide, rfl⟩)⟩

/-- C14: with login enabled, `HandleLoginResponse` on a response that did not succeed shows
exactly one error box, headed 'Login Failed', whose text is the error message of the response
when that is not empty and 'Please login again.' when it is; it makes no other call, and the
user context, the session tracker and the score trackers of the overlay stay as they were.
In the blocking login flow a first response with result `Failure` ends the flow: one call of
the login request, no second one. -/
theorem C14_login_failure_reported (response : LoginResponse) (w : World)
    (hEnabled : w.pUserContext.IsLoginDisabled = false)
    (hFailed : response.Succeeded = false) :
    (HandleLoginResponse response w).log =
      w.log ++ [Effect.HandleLoginResponse response,
        Effect.ShowErrorMessage "Login Failed"
          (if response.ErrorMessage ≠ "" then response.ErrorMessage
            else "Please login again.")] ∧
    (HandleLoginResponse response w).pUserContext = w.pUserContext ∧
    (HandleLoginResponse response w).sessionUser = w.sessionUser ∧
    (HandleLoginResponse response w).scoreTrackers = w.scoreTrackers ∧
    (w.pConfiguration.GetUsername ≠ "" → w.pConfiguration.GetApiToken ≠ "" →
      (w.loginServer w.loginCalls).Result = ApiResult.Failure →
      (_RA_AttemptLogin true w).loginCalls = w.loginCalls + 1 ∧
      (_RA_AttemptLogin true w).log =
        w.log ++ [Effect.LoginCall, Effect.HandleLoginResponse (w.loginServer w.loginCalls),
          Effect.ShowErrorMessage "Login Failed"
            (if (w.loginServer w.loginCalls).ErrorMessage ≠ "" then
              (w.loginServer w.loginCalls).ErrorMessage
            else "Please login again.")]) := by
  have hResult : response.Result ≠ ApiResult.Success := by
    simpa [LoginResponse.Succeeded] using hFailed
  rw [HandleLoginResponse_of_not_succeeded response w hEnabled hResult]
  refine ⟨by simp [World.emit], rfl, rfl, rfl, ?_⟩
  intro hUser hToken hFailure
  rw [_RA_AttemptLogin_blocking w hEnabled hUser hToken,
    if_neg (by rw [hFailure]; decide),
    HandleLoginResponse_of_not_succeeded _ _ (by exact hEnabled) (by rw [hFailure]; decide)]
  simp [World.emit]

/-- C14 at a login request that is refused with the message 'Invalid credentials'. -/
theorem C14_login_failure_reported_witness :
    (refusedLoginWorld.loginServer 0).Succeeded = false ∧
    (HandleLoginResponse (refusedLoginWorld.loginServer 0) refusedLoginWorld).log =
      refusedLoginWorld.log ++ [Effect.HandleLoginResponse (refusedLoginWorld.loginServer 0),
        Effect.ShowErrorMessage "Login Failed"
          (if (refusedLoginWorld.loginServer 0).ErrorMessage ≠ "" then
            (refusedLoginWorld.loginServer 0).ErrorMessage
          else "Please login again.")] ∧
    (_RA_AttemptLogin true refusedLoginWorld).loginCalls = refusedLoginWorld.loginCalls + 1 :=
  ⟨rfl, (C14_login_failure_reported (refusedLoginWorld.loginServer 0) refusedLoginWorld rfl
      rfl).1,
    ((C14_login_failure_reported (refusedLoginWorld.loginServer 0) refusedLoginWorld rfl
      rfl).2.2.2.2 (by decide) (by decide) rfl).1⟩

/-- C17: `UserContext::Logout` returns at once, with no call of the logout request, when the
user is not logged in.  When the user is logged in the logout request is called once; if the
response did not succeed, the user context stays as it was and the error box 'Logout failed'
is all that follows; if it succeeded, user name and API token become empty and the score 0, and
the popups of the overlay are cleared and the overlay hidden before anything else. -/
theorem C17_logout (IsLoggedIn : UserContext → Bool) (utest : Bool) (w : World) :
    (IsLoggedIn w.pUserContext = false → UserContext.Logout IsLoggedIn utest w = w) ∧
    (IsLoggedIn w.pUserContext = true →
      (w.logoutServer w.logoutCalls).Succeeded = false →
      (UserContext.Logout IsLoggedIn utest w).logoutCalls = w.logoutCalls + 1 ∧
      (UserContext.Logout IsLoggedIn utest w).pUserContext = w.pUserContext ∧
      (UserContext.Logout IsLoggedIn utest w).log =
        w.log ++ [Effect.LogoutCall,
          Effect.ShowErrorMessage "Logout failed"
            (w.logoutServer w.logoutCalls).ErrorMessage]) ∧
    (IsLoggedIn w.pUserContext = true →
      (w.logoutServer w.logoutCalls).Succeeded = true →
      (UserContext.Logout IsLoggedIn utest w).logoutCalls = w.logoutCalls + 1 ∧
      (UserContext.Logout IsLoggedIn utest w).pUserContext.m_sUsername = "" ∧
      (UserContext.Logout IsLoggedIn utest w).pUserContext.m_sApiToken = "" ∧
      (UserContext.Logout IsLoggedIn utest w).pUserContext.m_nScore = 0 ∧
      (UserContext.Logout IsLoggedIn utest w).log =
        w.log ++ [Effect.LogoutCall, Effect.ClearPopups, Effect.HideOverlay,
          Effect.ConfigurationSave]
        ++ (if utest then [] else [Effect.SetWindowTitle (w.GetAppTitle "")])
        ++ [Effect.RebuildMenu, Effect.ShowInfoMessage "You are now logged out."]) := by
  refine ⟨?_, ?_, ?_⟩
  · intro hOut
    simp [UserContext.Logout, hOut]
  · intro hIn hFailed
    have hResult : (w.logoutServer w.logoutCalls).Result ≠ ApiResult.Success := by
      simpa [LogoutResponse.Succeeded] using hFailed
    rw [Logout_of_not_succeeded IsLoggedIn utest w hIn hResult]
    exact ⟨rfl, rfl, rfl⟩
  · intro hIn hOk
    cases utest <;>
      simp [UserContext.Logout, LogoutRequest.Call, World.emit, _RA_UpdateAppTitle, hIn, hOk]

/-- C17 at a logged-in user whose logout request succeeds, and at one whose request does not
complete. -/
theorem C17_logout_witness :
    hasApiToken hardcoreWorld.pUserContext = true ∧
    (UserContext.Logout hasApiToken false hardcoreWorld).pUserContext.m_sApiToken = "" ∧
    (UserContext.Logout hasApiToken false hardcoreWorld).pUserContext.m_nScore = 0 ∧
    hasApiToken flakyLogoutWorld.pUserContext = true ∧
    (UserContext.Logout hasApiToken false flakyLogoutWorld).pUserContext
      = flakyLogoutWorld.pUserContext ∧
    UserContext.Logout hasApiToken false sampleWorld = sampleWorld :=
  ⟨by decide,
    ((C17_logout hasApiToken false hardcoreWorld).2.2 (by decide) rfl).2.2.1,
    ((C17_logout hasApiToken false hardcoreWorld).2.2 (by decide) rfl).2.2.2.1,
    by decide,
    ((C17_logout hasApiToken false flakyLogoutWorld).2.1 (by decide) rfl).2.1,
    (C17_logout hasApiToken false sampleWorld).1 (by decide)⟩

/-- `ChangeReference` with the pair the reference already has does nothing. -/
theorem ChangeReference_same (ReleaseReference : ImageReference → Nat) (s : ImageWorld) :
    ImageReference.ChangeReference ReleaseReference s.pImage.m_nType s.pImage.m_sName s = s := by
  simp [ImageReference.ChangeReference]

/-- The reference after `ChangeReference` and the releases the repository has received. -/
theorem ChangeReference_result (ReleaseReference : ImageReference → Nat) (nType : ImageType)
    (sName : String) (s : ImageWorld) :
    (ImageReference.ChangeReference ReleaseReference nType sName s).pImage.m_nType = nType ∧
    (ImageReference.ChangeReference ReleaseReference nType sName s).pImage.m_sName = sName ∧
    (ImageReference.ChangeReference ReleaseReference nType sName s).released =
      s.released ++
        (if (nType ≠ s.pImage.m_nType ∨ sName ≠ s.pImage.m_sName)
            ∧ s.pImage.m_nType ≠ ImageType.None then [s.pImage] else []) := by
  unfold ImageReference.ChangeReference
  by_cases hDiff : nType ≠ s.pImage.m_nType ∨ sName ≠ s.pImage.m_sName
  · rw [if_pos hDiff]
    unfold ImageReference.Release
    by_cases hNone : s.pImage.m_nType ≠ ImageType.None
    · rw [if_pos hNone, if_pos ⟨hDiff, hNone⟩]
      exact ⟨rfl, rfl, rfl⟩
    · rw [if_neg hNone, if_neg (fun h => hNone h.2)]
      exact ⟨rfl, rfl, by simp⟩
  · rw [if_neg hDiff, if_neg (fun h => hDiff h.1)]
    have h1 : nType = s.pImage.m_nType := by_contra fun h => hDiff (Or.inl h)
    have h2 : sName = s.pImage.m_sName := by_contra fun h => hDiff (Or.inr h)
    exact ⟨h1.symm, h2.symm, by simp⟩

/-- C15: after `ChangeReference(nType, sName)` the reference has that type and that name.  The
repository receives one `ReleaseReference` call, for the reference as it was, exactly when the
pair differs from the current one and the current type is not `None`, and none otherwise.  A
second call with the same arguments changes nothing and releases nothing. -/
theorem C15_change_reference (ReleaseReference : ImageReference → Nat) (nType : ImageType)
    (sName : String) (s : ImageWorld) :
    (ImageReference.ChangeReference ReleaseReference nType sName s).pImage.Type = nType ∧
    (ImageReference.ChangeReference ReleaseReference nType sName s).pImage.Name = sName ∧
    (ImageReference.ChangeReference ReleaseReference nType sName s).released =
      s.released ++
        (if (nType ≠ s.pImage.m_nType ∨ sName ≠ s.pImage.m_sName)
            ∧ s.pImage.m_nType ≠ ImageType.None then [s.pImage] else []) ∧
    ImageReference.ChangeReference ReleaseReference nType sName
        (ImageReference.ChangeReference ReleaseReference nType sName s)
      = ImageReference.ChangeReference ReleaseReference nType sName s := by
  obtain ⟨h1, h2, h3⟩ := ChangeReference_result ReleaseReference nType sName s
  refine ⟨h1, h2, h3, ?_⟩
  have hSame := ChangeReference_same ReleaseReference
    (ImageReference.ChangeReference ReleaseReference nType sName s)
  rw [h1, h2] at hSame
  exact hSame

/-- `CanRestoreState` when the user is logged in: it allows the restore, after the warning and
`DisableHardcoreMode` when the `Hardcore` feature is enabled. -/
theorem CanRestoreState_of_logged_in (IsLoggedIn : UserContext → Bool) (w : World)
    (hIn : IsLoggedIn w.pUserContext = true) :
    CanRestoreState IsLoggedIn w =
      (true,
        if w.pConfiguration.IsFeatureEnabled Feature.Hardcore then
          (w.emit (Effect.ShowWarningMessage "Disabling Hardcore mode."
            "Loading save states is not allowed in Hardcore mode.")).DisableHardcoreMode
        else w) := by
  simp [CanRestoreState, hIn]

/-- The restore of a logged-in user, whichever call loads the progress: the calls made, in
order, and what stays as it was. -/
theorem restore_of_logged_in (IsLoggedIn : UserContext → Bool) (utest : Bool) (eLoad : Effect)
    (w : World) (hIn : IsLoggedIn w.pUserContext = true) :
    (OnStateRestored utest ((CanRestoreState IsLoggedIn w).2.emit eLoad)).log =
      w.log
        ++ (if w.pConfiguration.IsFeatureEnabled Feature.Hardcore then
              [Effect.ShowWarningMessage "Disabling Hardcore mode."
                "Loading save states is not allowed in Hardcore mode.",
               Effect.DisableHardcoreMode]
            else [])
        ++ [eLoad, Effect.ClearPopups]
        ++ (if utest then []
            else [Effect.OverlayAdvanceFrame, Effect.MemoryBookmarksDoFrame,
                  Effect.MemoryInspectorDoFrame]
              ++ (match w.pEditingAchievement with
                  | some p => [Effect.SetDirtyFlag p]
                  | none => [])) ∧
    (OnStateRestored utest ((CanRestoreState IsLoggedIn w).2.emit eLoad)).scoreTrackers
      = w.scoreTrackers ∧
    (OnStateRestored utest ((CanRestoreState IsLoggedIn w).2.emit eLoad)).pRuntime
      = w.pRuntime ∧
    (OnStateRestored utest ((CanRestoreState IsLoggedIn w).2.emit eLoad)).pGameContext
      = w.pGameContext ∧
    (OnStateRestored utest ((CanRestoreState IsLoggedIn w).2.emit eLoad)).pUserContext
      = w.pUserContext ∧
    (OnStateRestored utest ((CanRestoreState IsLoggedIn w).2.emit
      eLoad)).pConfiguration.IsFeatureEnabled Feature.Hardcore = false := by
  rw [CanRestoreState_of_logged_in IsLoggedIn w hIn]
  cases utest <;> cases hH : w.pConfiguration.IsFeatureEnabled Feature.Hardcore <;>
    cases hE : w.pEditingAchievement <;>
    simp [OnStateRestored, UpdateUIForFrameChange, World.emit, World.DisableHardcoreMode, hH, hE]

/-- The two restore entry points of a logged-in user, unfolded. -/
theorem _RA_OnLoadState_of_logged_in (IsLoggedIn : UserContext → Bool) (utest : Bool)
    (sFilename pBuffer : String) (w : World) (hIn : IsLoggedIn w.pUserContext = true) :
    _RA_OnLoadState IsLoggedIn utest sFilename w =
      OnStateRestored utest
        ((CanRestoreState IsLoggedIn w).2.emit (Effect.LoadProgressFromFile sFilename)) ∧
    _RA_RestoreState IsLoggedIn utest pBuffer w =
      OnStateRestored utest
        ((CanRestoreState IsLoggedIn w).2.emit (Effect.LoadProgressFromBuffer pBuffer)) := by
  simp [_RA_OnLoadState, _RA_RestoreState, CanRestoreState_of_logged_in IsLoggedIn w hIn]

/-- The two restore entry points return the world they were given when the user is not logged
in. -/
theorem _RA_OnLoadState_of_logged_out (IsLoggedIn : UserContext → Bool) (utest : Bool)
    (sFilename pBuffer : String) (w : World) (hOut : IsLoggedIn w.pUserContext = false) :
    _RA_OnLoadState IsLoggedIn utest sFilename w = w ∧
    _RA_RestoreState IsLoggedIn utest pBuffer w = w := by
  simp [_RA_OnLoadState, _RA_RestoreState, CanRestoreState, hOut]

/-- C13: when `_RA_OnLoadState` or `_RA_RestoreState` loads the saved progress (the user is
logged in), `ClearPopups` is the call right after the load.  Before the load come only the
Hardcore warning and `DisableHardcoreMode`, after `ClearPopups` only, outside the test build, the
frame update of the user interface and the dirty flag of the edited achievement.  So the call
does not run the runtime, requests no pause, awards nothing and submits nothing, and calls
neither `AddScoreTracker` nor `RemoveScoreTracker`: the score trackers and the pending
changelogs of the runtime stay as they were.  (`ClearPopups` and the load are calls into code
outside `src/`; they are recorded, and what they do inside the overlay and the runtime is not
part of this statement.) -/
theorem C13_restore_clears_popups (IsLoggedIn : UserContext → Bool) (utest : Bool)
    (sFilename pBuffer : String) (w : World) (hIn : IsLoggedIn w.pUserContext = true) :
    ((_RA_OnLoadState IsLoggedIn utest sFilename w).log =
      w.log
        ++ (if w.pConfiguration.IsFeatureEnabled Feature.Hardcore then
              [Effect.ShowWarningMessage "Disabling Hardcore mode."
                "Loading save states is not allowed in Hardcore mode.",
               Effect.DisableHardcoreMode]
            else [])
        ++ [Effect.LoadProgressFromFile sFilename, Effect.ClearPopups]
        ++ (if utest then []
            else [Effect.OverlayAdvanceFrame, Effect.MemoryBookmarksDoFrame,
                  Effect.MemoryInspectorDoFrame]
              ++ (match w.pEditingAchievement with
                  | some p => [Effect.SetDirtyFlag p]
                  | none => [])) ∧
      (∀ e ∈ (_RA_OnLoadState IsLoggedIn utest sFilename w).log.drop w.log.length,
        e.isChangeDispatch = false) ∧
      (_RA_OnLoadState IsLoggedIn utest sFilename w).scoreTrackers = w.scoreTrackers ∧
      (_RA_OnLoadState IsLoggedIn utest sFilename w).pRuntime = w.pRuntime) ∧
    ((_RA_RestoreState IsLoggedIn utest pBuffer w).log =
      w.log
        ++ (if w.pConfiguration.IsFeatureEnabled Feature.Hardcore then
              [Effect.ShowWarningMessage "Disabling Hardcore mode."
                "Loading save states is not allowed in Hardcore mode.",
               Effect.DisableHardcoreMode]
            else [])
        ++ [Effect.LoadProgressFromBuffer pBuffer, Effect.ClearPopups]
        ++ (if utest then []
            else [Effect.OverlayAdvanceFrame, Effect.MemoryBookmarksDoFrame,
                  Effect.MemoryInspectorDoFrame]
              ++ (match w.pEditingAchievement with
                  | some p => [Effect.SetDirtyFlag p]
                  | none => [])) ∧
      (∀ e ∈ (_RA_RestoreState IsLoggedIn utest pBuffer w).log.drop w.log.length,
        e.isChangeDispatch = false) ∧
      (_RA_RestoreState IsLoggedIn utest pBuffer w).scoreTrackers = w.scoreTrackers ∧
      (_RA_RestoreState IsLoggedIn utest pBuffer w).pRuntime = w.pRuntime) := by
  obtain ⟨hFile, hBuffer⟩ := _RA_OnLoadState_of_logged_in IsLoggedIn utest sFilename pBuffer w hIn
  obtain ⟨f1, f2, f3, -⟩ :=
    restore_of_logged_in IsLoggedIn utest (Effect.LoadProgressFromFile sFilename) w hIn
  obtain ⟨b1, b2, b3, -⟩ :=
    restore_of_logged_in IsLoggedIn utest (Effect.LoadProgressFromBuffer pBuffer) w hIn
  rw [hFile, hBuffer]
  refine ⟨⟨f1, ?_, f2, f3⟩, ⟨b1, ?_, b2, b3⟩⟩
  · rw [f1]
    cases utest <;> cases w.pConfiguration.IsFeatureEnabled Feature.Hardcore <;>
      cases w.pEditingAchievement <;> simp [Effect.isChangeDispatch]
  · rw [b1]
    cases utest <;> cases w.pConfiguration.IsFeatureEnabled Feature.Hardcore <;>
      cases w.pEditingAchievement <;> simp [Effect.isChangeDispatch]

/-- C13 at a logged-in user with Hardcore enabled, a tracker on screen and an achievement in
the editor, outside the test build. -/
theorem C13_restore_clears_popups_witness :
    hasApiToken hardcoreWorld.pUserContext = true ∧
    (_RA_OnLoadState hasApiToken false "save.state" hardcoreWorld).log =
      [Effect.ShowWarningMessage "Disabling Hardcore mode."
         "Loading save states is not allowed in Hardcore mode.",
       Effect.DisableHardcoreMode,
       Effect.LoadProgressFromFile "save.state", Effect.ClearPopups,
       Effect.OverlayAdvanceFrame, Effect.MemoryBookmarksDoFrame,
       Effect.MemoryInspectorDoFrame, Effect.SetDirtyFlag 1] ∧
    (_RA_RestoreState hasApiToken false "buffer" hardcoreWorld).scoreTrackers
      = hardcoreWorld.scoreTrackers :=
  ⟨by decide,
    (C13_restore_clears_popups hasApiToken false "save.state" "buffer" hardcoreWorld
      (by decide)).1.1,
    (C13_restore_clears_popups hasApiToken false "save.state" "buffer" hardcoreWorld
      (by decide)).2.2.2.1⟩

/-- C16: `_RA_OnLoadState` and `_RA_RestoreState` load the progress into the runtime if and only
if the user is logged in.  When the user is not logged in they return the world they were
given.  When the user is logged in and the `Hardcore` feature is enabled, the warning is shown
and `DisableHardcoreMode` called before the load; and after every call that loaded, the
`Hardcore` feature is off. -/
theorem C16_restore_gating (IsLoggedIn : UserContext → Bool) (utest : Bool)
    (sFilename pBuffer : String) (w : World) :
    (Effect.LoadProgressFromFile sFilename
        ∈ (_RA_OnLoadState IsLoggedIn utest sFilename w).log.drop w.log.length
      ↔ IsLoggedIn w.pUserContext = true) ∧
    (Effect.LoadProgressFromBuffer pBuffer
        ∈ (_RA_RestoreState IsLoggedIn utest pBuffer w).log.drop w.log.length
      ↔ IsLoggedIn w.pUserContext = true) ∧
    (IsLoggedIn w.pUserContext = false →
      _RA_OnLoadState IsLoggedIn utest sFilename w = w ∧
      _RA_RestoreState IsLoggedIn utest pBuffer w = w) ∧
    (IsLoggedIn w.pUserContext = true →
      w.pConfiguration.IsFeatureEnabled Feature.Hardcore = true →
      (∃ tail : List Effect, (_RA_OnLoadState IsLoggedIn utest sFilename w).log =
        w.log ++ [Effect.ShowWarningMessage "Disabling Hardcore mode."
            "Loading save states is not allowed in Hardcore mode.",
          Effect.DisableHardcoreMode, Effect.LoadProgressFromFile sFilename] ++ tail) ∧
      (∃ tail : List Effect, (_RA_RestoreState IsLoggedIn utest pBuffer w).log =
        w.log ++ [Effect.ShowWarningMessage "Disabling Hardcore mode."
            "Loading save states is not allowed in Hardcore mode.",
          Effect.DisableHardcoreMode, Effect.LoadProgressFromBuffer pBuffer] ++ tail)) ∧
    (IsLoggedIn w.pUserContext = true →
      (_RA_OnLoadState IsLoggedIn utest sFilename w).pConfiguration.IsFeatureEnabled
          Feature.Hardcore = false ∧
      (_RA_RestoreState IsLoggedIn utest pBuffer w).pConfiguration.IsFeatureEnabled
          Feature.Hardcore = false) := by
  cases hIn : IsLoggedIn w.pUserContext
  · obtain ⟨h1, h2⟩ := _RA_OnLoadState_of_logged_out IsLoggedIn utest sFilename pBuffer w hIn
    rw [h1, h2]
    simp
  · obtain ⟨hFile, hBuffer⟩ :=
      _RA_OnLoadState_of_logged_in IsLoggedIn utest sFilename pBuffer w hIn
    obtain ⟨f1, -, -, -, -, f6⟩ :=
      restore_of_logged_in IsLoggedIn utest (Effect.LoadProgressFromFile sFilename) w hIn
    obtain ⟨b1, -, -, -, -, b6⟩ :=
      restore_of_logged_in IsLoggedIn utest (Effect.LoadProgressFromBuffer pBuffer) w hIn
    rw [hFile, hBuffer]
    refine ⟨?_, ?_, by simp, ?_, fun _ => ⟨f6, b6⟩⟩
    · rw [f1]; simp
    · rw [b1]; simp
    · intro _ hHard
      rw [f1, b1, hHard]
      exact ⟨⟨_, by simp; rfl⟩, ⟨_, by simp; rfl⟩⟩

/-- C16 at a logged-in user with Hardcore enabled, and at a user who is not logged in. -/
theorem C16_restore_gating_witness :
    hasApiToken hardcoreWorld.pUserContext = true ∧
    hardcoreWorld.pConfiguration.IsFeatureEnabled Feature.Hardcore = true ∧
    (_RA_OnLoadState hasApiToken false "save.state" hardcoreWorld).pConfiguration.IsFeatureEnabled
        Feature.Hardcore = false ∧
    hasApiToken sampleWorld.pUserContext = false ∧
    _RA_RestoreState hasApiToken false "buffer" sampleWorld = sampleWorld :=
  ⟨by decide, rfl,
    ((C16_restore_gating hasApiToken false "save.state" "buffer" hardcoreWorld).2.2.2.2
      (by decide)).1,
    by decide,
    ((C16_restore_gating hasApiToken false "save.state" "buffer" sampleWorld).2.2.1
      (by decide)).2⟩

/-- The calls one change adds: no call of the runtime, one award for an `AchievementTriggered`
event and one submission for a `LeaderboardTriggered` event, none otherwise. -/
theorem ProcessChange_calls (utest : Bool) (w : World) (c : Change) :
    processCalls (ProcessChange utest w c).log = processCalls w.log ∧
    awardedIds (ProcessChange utest w c).log = awardedIds w.log ++ triggeredAchievements [c] ∧
    submittedEntries (ProcessChange utest w c).log
      = submittedEntries w.log ++ triggeredLeaderboards [c] := by
  obtain ⟨t, nId, nValue⟩ := c
  obtain ⟨-, a2, -, a4, -, a6⟩ := AwardAchievement_frame w nId
  cases t <;> simp only [ProcessChange, a2, a4] <;> refine ⟨?_, ?_, ?_⟩ <;>
    (repeat' split) <;>
    simp [World.emit, World.SetUnlockRichPresence, World.AddScoreTracker, World.SetDisplayText,
      World.RemoveScoreTracker, processCalls, awardedIds, submittedEntries,
      triggeredAchievements, triggeredLeaderboards, List.filterMap_append, List.count_append,
      a6, List.filterMap_cons, List.count_cons, apply_ite] <;>
    (try split) <;> simp_all

/-- The calls a sequence of changes adds, from any world; the runtime stays as it is. -/
theorem foldl_ProcessChange_calls (utest : Bool) (vChanges : List Change) :
    ∀ w : World,
      (vChanges.foldl (ProcessChange utest) w).pRuntime = w.pRuntime ∧
      processCalls (vChanges.foldl (ProcessChange utest) w).log = processCalls w.log ∧
      awardedIds (vChanges.foldl (ProcessChange utest) w).log
        = awardedIds w.log ++ triggeredAchievements vChanges ∧
      submittedEntries (vChanges.foldl (ProcessChange utest) w).log
        = submittedEntries w.log ++ triggeredLeaderboards vChanges := by
  induction vChanges with
  | nil => intro w; simp [triggeredAchievements, triggeredLeaderboards]
  | cons c cs ih =>
    intro w
    obtain ⟨h1, h2, h3, h4⟩ := ih (ProcessChange utest w c)
    obtain ⟨s1, s2, s3⟩ := ProcessChange_calls utest w c
    have hA : triggeredAchievements (c :: cs)
        = triggeredAchievements [c] ++ triggeredAchievements cs := by
      unfold triggeredAchievements
      rw [← List.filterMap_append, List.singleton_append]
    have hL : triggeredLeaderboards (c :: cs)
        = triggeredLeaderboards [c] ++ triggeredLeaderboards cs := by
      unfold triggeredLeaderboards
      rw [← List.filterMap_append, List.singleton_append]
    rw [List.foldl_cons, h1, h2, h3, h4, s1, s2, s3, hA, hL, (ProcessChange_frame utest w c).1]
    simp

/-- One unpaused call of `ProcessAchievements`, unfolded: the edited achievement is marked
outside the test build, the runtime is called once, and the changes it returned are handled
in order. -/
theorem ProcessAchievements_unpaused (utest : Bool) (w : World)
    (hRun : w.pRuntime.IsPaused = false) :
    ProcessAchievements utest w =
      (AchievementRuntime.Process (if utest then w else MarkEditingAchievement w)).1.foldl
        (ProcessChange utest)
        (AchievementRuntime.Process (if utest then w else MarkEditingAchievement w)).2 := by
  simp [ProcessAchievements, hRun]

/-- Marking the edited achievement adds no call of the runtime, no award and no submission. -/
theorem MarkEditingAchievement_calls (w : World) :
    processCalls (MarkEditingAchievement w).log = processCalls w.log ∧
    awardedIds (MarkEditingAchievement w).log = awardedIds w.log ∧
    submittedEntries (MarkEditingAchievement w).log = submittedEntries w.log := by
  unfold MarkEditingAchievement
  refine ⟨?_, ?_, ?_⟩ <;> (repeat' split) <;>
    simp [World.emit, processCalls, awardedIds, submittedEntries, List.filterMap_append,
      List.count_append]

/-- One unpaused call with the changelog `vChanges` pending first: what it adds to the calls,
and what it leaves pending. -/
theorem ProcessAchievements_calls (utest : Bool) (w : World) (vChanges : List Change)
    (rest : List (List Change))
    (hRun : w.pRuntime.IsPaused = false)
    (hPending : w.pRuntime.pending = vChanges :: rest) :
    (ProcessAchievements utest w).pRuntime.IsPaused = false ∧
    (ProcessAchievements utest w).pRuntime.pending = rest ∧
    processCalls (ProcessAchievements utest w).log = processCalls w.log + 1 ∧
    awardedIds (ProcessAchievements utest w).log
      = awardedIds w.log ++ triggeredAchievements vChanges ∧
    submittedEntries (ProcessAchievements utest w).log
      = submittedEntries w.log ++ triggeredLeaderboards vChanges := by
  rw [ProcessAchievements_unpaused utest w hRun]
  obtain ⟨m1, -, -⟩ := MarkEditingAchievement_frame w
  obtain ⟨c1, c2, c3⟩ := MarkEditingAchievement_calls w
  have hP0 : (if utest then w else MarkEditingAchievement w).pRuntime = w.pRuntime := by
    cases utest <;> simp [m1]
  have hC0 : processCalls (if utest then w else MarkEditingAchievement w).log
        = processCalls w.log ∧
      awardedIds (if utest then w else MarkEditingAchievement w).log = awardedIds w.log ∧
      submittedEntries (if utest then w else MarkEditingAchievement w).log
        = submittedEntries w.log := by
    cases utest <;> simp [c1, c2, c3]
  generalize (if utest then w else MarkEditingAchievement w) = w0 at hP0 hC0
  have hPend : w0.pRuntime.pending = vChanges :: rest := by rw [hP0, hPending]
  have hProc : AchievementRuntime.Process w0 =
      (vChanges, ({ w0 with pRuntime := { w0.pRuntime with pending := rest } }).emit
        Effect.RuntimeProcess) := by
    simp [AchievementRuntime.Process, hPend]
  rw [hProc]
  obtain ⟨f1, f2, f3, f4⟩ := foldl_ProcessChange_calls utest vChanges
    (({ w0 with pRuntime := { w0.pRuntime with pending := rest } }).emit Effect.RuntimeProcess)
  simp only [f1, f2, f3, f4]
  obtain ⟨d1, d2, d3⟩ := hC0
  refine ⟨by simp [World.emit, hP0, hRun], by simp [World.emit], ?_, ?_, ?_⟩
  · simp [World.emit, processCalls, List.count_append] at d1 ⊢
    exact d1
  · simp [World.emit, awardedIds, List.filterMap_append] at d2 ⊢
    exact d2
  · simp [World.emit, submittedEntries, List.filterMap_append] at d3 ⊢
    exact d3

/-- The calls that the pending frames add when they run, from any unpaused world, and what is
left pending. -/
theorem ProcessFrames_calls (utest : Bool) (frames rest : List (List Change)) :
    ∀ w : World, w.pRuntime.IsPaused = false → w.pRuntime.pending = frames ++ rest →
      (ProcessFrames utest frames.length w).pRuntime.pending = rest ∧
      processCalls (ProcessFrames utest frames.length w).log
        = processCalls w.log + frames.length ∧
      awardedIds (ProcessFrames utest frames.length w).log
        = awardedIds w.log ++ triggeredAchievements frames.flatten ∧
      submittedEntries (ProcessFrames utest frames.length w).log
        = submittedEntries w.log ++ triggeredLeaderboards frames.flatten := by
  induction frames with
  | nil =>
    intro w _ hPending
    simpa [ProcessFrames, triggeredAchievements, triggeredLeaderboards] using hPending
  | cons vChanges more ih =>
    intro w hRun hPending
    obtain ⟨h1, h2, h3, h4, h5⟩ :=
      ProcessAchievements_calls utest w vChanges (more ++ rest) hRun
        (by rw [hPending, List.cons_append])
    obtain ⟨r1, r2, r3, r4⟩ := ih (ProcessAchievements utest w) h1 h2
    have hA : triggeredAchievements (vChanges ++ more.flatten)
        = triggeredAchievements vChanges ++ triggeredAchievements more.flatten := by
      unfold triggeredAchievements
      rw [List.filterMap_append]
    have hL : triggeredLeaderboards (vChanges ++ more.flatten)
        = triggeredLeaderboards vChanges ++ triggeredLeaderboards more.flatten := by
      unfold triggeredLeaderboards
      rw [List.filterMap_append]
    rw [List.length_cons, ProcessFrames, List.flatten_cons, r2, r3, r4, h3, h4, h5, hA, hL]
    refine ⟨r1, by omega, by simp, by simp⟩

/-- C12: an unpaused call of `ProcessAchievements` calls `AchievementRuntime::Process` exactly
once and handles the changes it returned, all of them, one after the other in their order,
leaving the later changelogs pending.  Over successive calls every `AchievementTriggered`
event gives exactly one `AwardAchievement` call and every `LeaderboardTriggered` event exactly
one `SubmitLeaderboardEntry` call, in the order of the events, none twice and none carried into
another call.  Handling a sequence `xs ++ ys` is handling `xs` and then `ys`. -/
theorem C12_changelog_drained (utest : Bool) (w : World) (frames rest : List (List Change))
    (hRun : w.pRuntime.IsPaused = false)
    (hPending : w.pRuntime.pending = frames ++ rest) :
    (∀ (vChanges : List Change) (more : List (List Change)), frames = vChanges :: more →
      (AchievementRuntime.Process (if utest then w else MarkEditingAchievement w)).1
        = vChanges ∧
      ProcessAchievements utest w =
        vChanges.foldl (ProcessChange utest)
          (AchievementRuntime.Process (if utest then w else MarkEditingAchievement w)).2 ∧
      processCalls (ProcessAchievements utest w).log = processCalls w.log + 1 ∧
      (ProcessAchievements utest w).pRuntime.pending = more ++ rest) ∧
    processCalls (ProcessFrames utest frames.length w).log
      = processCalls w.log + frames.length ∧
    (ProcessFrames utest frames.length w).pRuntime.pending = rest ∧
    awardedIds (ProcessFrames utest frames.length w).log
      = awardedIds w.log ++ triggeredAchievements frames.flatten ∧
    submittedEntries (ProcessFrames utest frames.length w).log
      = submittedEntries w.log ++ triggeredLeaderboards frames.flatten ∧
    ∀ (xs ys : List Change) (w2 : World),
      (xs ++ ys).foldl (ProcessChange utest) w2
        = ys.foldl (ProcessChange utest) (xs.foldl (ProcessChange utest) w2) := by
  obtain ⟨r1, r2, r3, r4⟩ := ProcessFrames_calls utest frames rest w hRun hPending
  refine ⟨?_, r2, r1, r3, r4, fun xs ys w2 => List.foldl_append _ _ _ _⟩
  intro vChanges more hFrames
  have hPend : w.pRuntime.pending = vChanges :: (more ++ rest) := by
    rw [hPending, hFrames, List.cons_append]
  obtain ⟨-, h2, h3, -, -⟩ :=
    ProcessAchievements_calls utest w vChanges (more ++ rest) hRun hPend
  have hUnfold := ProcessAchievements_unpaused utest w hRun
  have hHead : (AchievementRuntime.Process
      (if utest then w else MarkEditingAchievement w)).1 = vChanges := by
    have hP0 : (if utest then w else MarkEditingAchievement w).pRuntime.pending
        = vChanges :: (more ++ rest) := by
      cases utest <;> simp [(MarkEditingAchievement_frame w).1, hPend]
    simp [AchievementRuntime.Process, hP0]
  exact ⟨hHead, by rw [hUnfold, hHead], h3, h2⟩

/-- C12 at the trigger frames: three calls of the runtime, the awards 2, 1, 2 and the
submissions (7, 5), (8, 9) in the order of the events, nothing left pending. -/
theorem C12_changelog_drained_witness :
    triggerWorld.pRuntime.IsPaused = false ∧
    triggerWorld.pRuntime.pending = triggerFrames ++ [] ∧
    processCalls (ProcessFrames false triggerFrames.length triggerWorld).log = 3 ∧
    (ProcessFrames false triggerFrames.length triggerWorld).pRuntime.pending = [] ∧
    awardedIds (ProcessFrames false triggerFrames.length triggerWorld).log = [2, 1, 2] ∧
    submittedEntries (ProcessFrames false triggerFrames.length triggerWorld).log
      = [(7, 5), (8, 9)] :=
  ⟨rfl, rfl,
    (C12_changelog_drained false triggerWorld triggerFrames [] rfl rfl).2.1.trans (by decide),
    (C12_changelog_drained false triggerWorld triggerFrames [] rfl rfl).2.2.1,
    (C12_changelog_drained false triggerWorld triggerFrames [] rfl rfl).2.2.2.1.trans
      (by decide),
    (C12_changelog_drained false triggerWorld triggerFrames [] rfl rfl).2.2.2.2.1.trans
      (by decide)⟩

end RAIntegration
